import Mathlib

/-!
Verification of the d8_methods component of the richdem repository
(`src/d8_methods.cpp`): a shallow embedding in Lean 4 of the terrain-attribute
stencil engine (`d8_terrain_attrib_helper`, `d8_terrain_attribute`), the
derived-index calculators (`d8_SPI`, `d8_CTI`) and the priority-flood
watershed labeller (`find_watersheds`), together with theorems settling the
specification claims about them.

Machine floating point (`float`/`double`) is embedded as exact rationals `ℚ`;
the transcendental library routines from `<cmath>` (`sqrt`, `atan`, `atan2`,
`log`, the constant `M_PI`) are external to the repository and are abstracted
as an explicit bundle of rational-valued stand-ins (`RealFuns`) threaded
through the definitions, so every definition stays computable.
-/

/-- Modelled from the spec: the 2D grid container (`float_2d`, `int_2d`,
`bool_2d` from `data_structures.h`, which is not under `src/`) — "a 2D array
of scalar values with a designated no-data sentinel, a uniform cell size,
bounds-checked membership test, and dimension/property copying". `cell` is
total; only in-grid coordinates are meaningful. -/
structure Grid (α : Type) where
  width : Nat
  height : Nat
  cellsize : ℚ
  no_data : α
  cell : Int → Int → α

/-- Modelled from the spec: the bounds-checked membership test `in_grid`. -/
def Grid.in_grid {α : Type} (g : Grid α) (x y : Int) : Bool :=
  decide (0 ≤ x) && decide (x < (g.width : Int)) &&
  decide (0 ≤ y) && decide (y < (g.height : Int))

/-- Writing one cell of a grid, leaving all properties unchanged. -/
def Grid.set {α : Type} (g : Grid α) (x y : Int) (v : α) : Grid α :=
  { g with cell := fun p q => if p = x ∧ q = y then v else g.cell p q }

/-- Abstract stand-ins for the `<cmath>` routines and `M_PI` used by the
source: they are external library calls, not repository code, so they are
parameters of the embedding. -/
structure RealFuns where
  sqrt : ℚ → ℚ
  atan2 : ℚ → ℚ → ℚ
  atan : ℚ → ℚ
  rlog : ℚ → ℚ
  pi : ℚ

/-- A concrete instance of the abstract real-function bundle, used to
instantiate universally quantified theorems on concrete inputs. -/
def rfZero : RealFuns :=
  { sqrt := fun _ => 0, atan2 := fun _ _ => 0, atan := fun _ => 0,
    rlog := fun _ => 0, pi := 3 }

/-- Modelled from the spec: the terrain-attribute selector enum
(`TATTRIB_*` from `d8_methods.h`, not under `src/`): "attrib: enum
{CURVATURE, PLANFORM_CURVATURE, PROFILE_CURVATURE, ASPECT, SLOPE_RISERUN,
SLOPE_PERCENT, SLOPE_RADIAN, SLOPE_DEGREE}". -/
inductive TAttrib
  | curvature
  | planform_curvature
  | profile_curvature
  | aspect
  | slope_riserun
  | slope_percent
  | slope_radian
  | slope_degree
deriving DecidableEq

/-- The five outputs of `d8_terrain_attrib_helper`. -/
structure TerrainAttribs where
  rise_over_run : ℚ
  aspect : ℚ
  curvature : ℚ
  profile_curvature : ℚ
  planform_curvature : ℚ
deriving DecidableEq

/-- Embedding of `d8_terrain_attrib_helper` (d8_methods.cpp:51): the 3×3
window a..i with out-of-grid and no-data neighbors replaced by the center
value, foot-to-meter conversion, Horn 1981 slope/aspect, Zevenbergen-Thorne
1987 curvatures. -/
def d8_terrain_attrib_helper (rf : RealFuns) (elevations : Grid ℚ)
    (x0 y0 : Int) : TerrainAttribs :=
  let e0 := elevations.cell x0 y0
  let a0 := if elevations.in_grid (x0-1) (y0-1) then elevations.cell (x0-1) (y0-1) else e0
  let d0 := if elevations.in_grid (x0-1) y0 then elevations.cell (x0-1) y0 else e0
  let g0 := if elevations.in_grid (x0-1) (y0+1) then elevations.cell (x0-1) (y0+1) else e0
  let b0 := if elevations.in_grid x0 (y0-1) then elevations.cell x0 (y0-1) else e0
  let h0 := if elevations.in_grid x0 (y0+1) then elevations.cell x0 (y0+1) else e0
  let c0 := if elevations.in_grid (x0+1) (y0-1) then elevations.cell (x0+1) (y0-1) else e0
  let f0 := if elevations.in_grid (x0+1) y0 then elevations.cell (x0+1) y0 else e0
  let i0 := if elevations.in_grid (x0+1) (y0+1) then elevations.cell (x0+1) (y0+1) else e0
  let a0 := if a0 = elevations.no_data then e0 else a0
  let b0 := if b0 = elevations.no_data then e0 else b0
  let c0 := if c0 = elevations.no_data then e0 else c0
  let d0 := if d0 = elevations.no_data then e0 else d0
  let f0 := if f0 = elevations.no_data then e0 else f0
  let g0 := if g0 = elevations.no_data then e0 else g0
  let h0 := if h0 = elevations.no_data then e0 else h0
  let i0 := if i0 = elevations.no_data then e0 else i0
  let a := a0 * 0.3048
  let b := b0 * 0.3048
  let c := c0 * 0.3048
  let d := d0 * 0.3048
  let e := e0 * 0.3048
  let f := f0 * 0.3048
  let g := g0 * 0.3048
  let h := h0 * 0.3048
  let i := i0 * 0.3048
  let dzdx := ((c + 2*f + i) - (a + 2*d + g)) / 8
  let dzdy := ((g + 2*h + i) - (a + 2*b + c)) / 8
  let aspect0 := 180 / rf.pi * rf.atan2 dzdy (-dzdx)
  let aspect :=
    if aspect0 < 0 then 90 - aspect0
    else if aspect0 > 90 then 360 - aspect0 + 90
    else 90 - aspect0
  let dzdx := dzdx / elevations.cellsize
  let dzdy := dzdy / elevations.cellsize
  let rise_over_run := rf.sqrt (dzdx*dzdx + dzdy*dzdy)
  if rise_over_run = 0 then
    { rise_over_run := rise_over_run, aspect := -1, curvature := 0,
      profile_curvature := 0, planform_curvature := 0 }
  else
    let L := elevations.cellsize
    let D := ((d + f)/2 - e) / L / L
    let E := ((b + h)/2 - e) / L / L
    let F := (-a + c + g - i)/4/L/L
    let G := (-d + f)/2/L
    let H := (b - h)/2/L
    let curvature := -2*(D + E)*100
    if G = 0 ∧ H = 0 then
      { rise_over_run := rise_over_run, aspect := aspect,
        curvature := curvature, profile_curvature := 0, planform_curvature := 0 }
    else
      { rise_over_run := rise_over_run, aspect := aspect,
        curvature := curvature,
        profile_curvature := 2*(D*G*G + E*H*H + F*G*H)/(G*G + H*H)*100,
        planform_curvature := -2*(D*H*H + E*G*G - F*G*H)/(G*G + H*H)*100 }

/-- Embedding of `d8_terrain_attribute` (d8_methods.cpp:199): the output
grid adopts the input's dimensions and cell size (`copyprops`), its no-data
sentinel is set to −99999, and each cell is the no-data sentinel when the
input cell is no-data, otherwise the selected attribute from the helper. -/
def d8_terrain_attribute (rf : RealFuns) (elevations : Grid ℚ)
    (attrib : TAttrib) : Grid ℚ :=
  { width := elevations.width
    height := elevations.height
    cellsize := elevations.cellsize
    no_data := -99999
    cell := fun x y =>
      if elevations.cell x y = elevations.no_data then -99999
      else
        let t := d8_terrain_attrib_helper rf elevations x y
        match attrib with
        | TAttrib.curvature => t.curvature
        | TAttrib.planform_curvature => t.planform_curvature
        | TAttrib.profile_curvature => t.profile_curvature
        | TAttrib.aspect => t.aspect
        | TAttrib.slope_riserun => t.rise_over_run
        | TAttrib.slope_percent => t.rise_over_run * 100
        | TAttrib.slope_radian => rf.atan t.rise_over_run
        | TAttrib.slope_degree => rf.atan t.rise_over_run * 180 / rf.pi }

/-- Embedding of `d8_SPI` (d8_methods.cpp:458). The C++ function reports a
dimension mismatch and calls `exit(-1)` before touching the result grid;
this is embedded as `Except.error`, which carries no result grid at all.
On success the result adopts `flow_accumulation`'s properties
(`copyprops`), has no-data sentinel −1, and each cell is −1 when either
input cell is its grid's no-data, otherwise the log formula. -/
def d8_SPI (rf : RealFuns) (flow_accumulation percent_slope : Grid ℚ) :
    Except String (Grid ℚ) :=
  if flow_accumulation.width ≠ percent_slope.width ∨
     flow_accumulation.height ≠ percent_slope.height then
    Except.error "Couldn't calculate SPI! The input matricies were of unequal dimensions!"
  else
    Except.ok
      { width := flow_accumulation.width
        height := flow_accumulation.height
        cellsize := flow_accumulation.cellsize
        no_data := -1
        cell := fun x y =>
          if flow_accumulation.cell x y = flow_accumulation.no_data ∨
             percent_slope.cell x y = percent_slope.no_data then -1
          else
            rf.rlog (flow_accumulation.cellsize * (flow_accumulation.cell x y + 0.001) *
              (percent_slope.cell x y / 100 + 0.001)) }

/-- Embedding of `d8_CTI` (d8_methods.cpp:514): identical to `d8_SPI`
except the second factor divides instead of multiplies. -/
def d8_CTI (rf : RealFuns) (flow_accumulation percent_slope : Grid ℚ) :
    Except String (Grid ℚ) :=
  if flow_accumulation.width ≠ percent_slope.width ∨
     flow_accumulation.height ≠ percent_slope.height then
    Except.error "Couldn't calculate CTI! The input matricies were of unequal dimensions!"
  else
    Except.ok
      { width := flow_accumulation.width
        height := flow_accumulation.height
        cellsize := flow_accumulation.cellsize
        no_data := -1
        cell := fun x y =>
          if flow_accumulation.cell x y = flow_accumulation.no_data ∨
             percent_slope.cell x y = percent_slope.no_data then -1
          else
            rf.rlog (flow_accumulation.cellsize * (flow_accumulation.cell x y + 0.001) /
              (percent_slope.cell x y / 100 + 0.001)) }

/-- A priority-queue / stack entry: coordinates plus the elevation carried at
push time (`grid_cellz`). -/
structure Cellz where
  x : Int
  y : Int
  z : ℚ
deriving DecidableEq

/-- Modelled from the spec: the open priority queue `grid_cellz_pq`
(`data_structures.h`, not under `src/`) is "a max-elevation-ordered priority
queue ... ties broken arbitrarily (implementation-defined)"; it is modelled
as a list from which the first entry of maximal `z` is popped. -/
def popMaxZ : List Cellz → Option (Cellz × List Cellz)
  | [] => none
  | c :: rest =>
    match popMaxZ rest with
    | none => some (c, [])
    | some (m, rest') => if c.z < m.z then some (m, c :: rest') else some (c, rest)

/-- Modelled from the spec: the 8-direction neighbor offset tables `dx`/`dy`
(`utility.h`, not under `src/`): "the 8 grid-adjacent neighbors (N, S, E, W,
and 4 diagonals)", indexed n = 1..8 in the source. -/
def neighborOffsets : List (Int × Int) :=
  [(-1,-1), (0,-1), (1,-1), (-1,0), (1,0), (-1,1), (0,1), (1,1)]

/-- The mutable state of one invocation of `find_watersheds`: the in-out
elevation grid, the label grid, the closed-set grid, the open priority
queue, the meander stack (LIFO, head = top) and the label counter. -/
structure WState where
  elev : Grid ℚ
  labels : Grid Int
  closed : Grid Bool
  opn : List Cellz
  meander : List Cellz
  clabel : Int

/-- Popping one cell as the main loop of `find_watersheds` does
(d8_methods.cpp:372-382): the meander stack is preferred when non-empty,
otherwise the maximal-elevation entry of the open queue; `none` when both
are empty (loop exit). -/
def popCell (s : WState) : Option (Cellz × WState) :=
  match s.meander with
  | c :: rest => some (c, { s with meander := rest })
  | [] =>
    match popMaxZ s.opn with
    | some (c, rest) => some (c, { s with opn := rest })
    | none => none

/-- Embedding of one iteration of the neighbor loop of `find_watersheds`
(d8_methods.cpp:388-404) for offset `d`: skip out-of-grid or closed
neighbors; otherwise inherit the popped cell's label, close the neighbor,
and either (elevation ≤ flood level) optionally overwrite the elevation and
push onto the meander stack with the flood elevation, or push onto the open
queue with the neighbor's own elevation. -/
def processNeighbor (alter_elevations : Bool) (c : Cellz) (s : WState)
    (d : Int × Int) : WState :=
  let nx := c.x + d.1
  let ny := c.y + d.2
  if ¬ s.elev.in_grid nx ny then s
  else if s.closed.cell nx ny then s
  else
    let s1 := { s with labels := s.labels.set nx ny (s.labels.cell c.x c.y) }
    let s2 := { s1 with closed := s1.closed.set nx ny true }
    if s2.elev.cell nx ny ≤ c.z then
      { s2 with
        elev := if alter_elevations then s2.elev.set nx ny c.z else s2.elev,
        meander := ⟨nx, ny, c.z⟩ :: s2.meander }
    else
      { s2 with opn := s2.opn ++ [⟨nx, ny, s2.elev.cell nx ny⟩] }

/-- Embedding of the fresh-label step of `find_watersheds`
(d8_methods.cpp:385-386): a popped cell that is still unlabeled and whose
elevation is valid data receives the counter value, and the counter is
incremented. -/
def freshLabel (s1 : WState) (c : Cellz) : WState :=
  if s1.labels.cell c.x c.y = s1.labels.no_data ∧
     s1.elev.cell c.x c.y ≠ s1.elev.no_data then
    { s1 with labels := s1.labels.set c.x c.y s1.clabel, clabel := s1.clabel + 1 }
  else s1

/-- Embedding of one iteration of the main loop of `find_watersheds`
(d8_methods.cpp:372-406): pop a cell (`none` when both frontier structures
are empty); if it is unlabeled and its elevation is valid data, give it the
next fresh label; then process the 8 neighbors in order. -/
def stepW (alter_elevations : Bool) (s : WState) : Option WState :=
  match popCell s with
  | none => none
  | some (c, s1) =>
    some (neighborOffsets.foldl (processNeighbor alter_elevations c)
      (freshLabel s1 c))

/-- Iterating the main loop for at most `n` steps (fuel); stops early when
both frontier structures are empty. -/
def runSteps (alter_elevations : Bool) : Nat → WState → WState
  | 0, s => s
  | n + 1, s =>
    match stepW alter_elevations s with
    | none => s
    | some s' => runSteps alter_elevations n s'

/-- The two open-queue entries pushed for column x of the first seeding
loop (d8_methods.cpp:356-361): the top-row and bottom-row cells of that
column, keyed by their own elevations. -/
def entTB (g : Grid ℚ) (x : Nat) : List Cellz :=
  [⟨Int.ofNat x, 0, g.cell (Int.ofNat x) 0⟩,
   ⟨Int.ofNat x, (g.height : Int) - 1, g.cell (Int.ofNat x) ((g.height : Int) - 1)⟩]

/-- The two open-queue entries pushed for iteration i of the second seeding
loop (d8_methods.cpp:362-367), which visits row y = i + 1: the left-column
and right-column cells of that row, keyed by their own elevations. -/
def entLR (g : Grid ℚ) (i : Nat) : List Cellz :=
  [⟨0, Int.ofNat i + 1, g.cell 0 (Int.ofNat i + 1)⟩,
   ⟨(g.width : Int) - 1, Int.ofNat i + 1,
     g.cell ((g.width : Int) - 1) (Int.ofNat i + 1)⟩]

/-- One iteration of the first seeding loop: push the two entries of
column x and mark both cells closed. -/
def seedStepTB (g : Grid ℚ) (s : WState) (x : Nat) : WState :=
  { s with
    opn := s.opn ++ entTB g x
    closed := (s.closed.set (Int.ofNat x) 0 true).set (Int.ofNat x)
      ((g.height : Int) - 1) true }

/-- One iteration of the second seeding loop: push the two entries of row
i + 1 and mark both cells closed. -/
def seedStepLR (g : Grid ℚ) (s : WState) (i : Nat) : WState :=
  { s with
    opn := s.opn ++ entLR g i
    closed := (s.closed.set 0 (Int.ofNat i + 1) true).set
      ((g.width : Int) - 1) (Int.ofNat i + 1) true }

/-- The state of `find_watersheds` before its seeding loops
(d8_methods.cpp:336-352): closed-set all false, label grid initialized to
its no-data sentinel −1, both frontier structures empty, counter 1. -/
def seedInit (g : Grid ℚ) : WState :=
  { elev := g
    labels := { width := g.width, height := g.height, cellsize := g.cellsize,
                no_data := -1, cell := fun _ _ => -1 }
    closed := { width := g.width, height := g.height, cellsize := g.cellsize,
                no_data := false, cell := fun _ _ => false }
    opn := []
    meander := []
    clabel := 1 }

/-- The state of `find_watersheds` after its set-up phase
(d8_methods.cpp:336-367): the first loop visits the top and bottom rows
column by column, the second the left and right columns of the interior
rows y = 1..height−2. Pushes append to the list, mirroring the order of
the push calls. -/
def seedState (g : Grid ℚ) : WState :=
  (List.range (g.height - 2)).foldl (seedStepLR g)
    ((List.range g.width).foldl (seedStepTB g) (seedInit g))

/-- All in-grid coordinates of a grid, as a duplicate-free list. -/
def allCells {α : Type} (g : Grid α) : List (Int × Int) :=
  (List.range g.width).flatMap fun x =>
    (List.range g.height).map fun y => (Int.ofNat x, Int.ofNat y)

/-- The termination measure of the main loop: cells not yet closed plus the
sizes of the two frontier structures. Every iteration decreases it. -/
def measureW (s : WState) : Nat :=
  (allCells s.elev).countP (fun p => ! s.closed.cell p.1 p.2) +
    s.opn.length + s.meander.length

/-- Embedding of `find_watersheds` (d8_methods.cpp:331): seed, then run the
main loop to completion (the measure of the seeded state is enough fuel, as
proved below). -/
def find_watersheds (g : Grid ℚ) (alter_elevations : Bool) : WState :=
  runSteps alter_elevations (measureW (seedState g)) (seedState g)

/-- How many entries of a frontier list carry the coordinates (x, y). -/
def countCell (x y : Int) (l : List Cellz) : Nat :=
  l.countP fun e => decide (e.x = x) && decide (e.y = y)

/-- Membership of (p, q) in the 8-neighborhood of the cell c. -/
def isNeighborOf (c : Cellz) (p q : Int) : Prop :=
  ∃ d ∈ neighborOffsets, p = c.x + d.1 ∧ q = c.y + d.2

/-- A coordinate on the outer boundary of a grid. -/
def onBoundary {α : Type} (g : Grid α) (x y : Int) : Prop :=
  g.in_grid x y = true ∧
    (x = 0 ∨ x = (g.width : Int) - 1 ∨ y = 0 ∨ y = (g.height : Int) - 1)

/-! ## Concrete instances used to instantiate theorems with hypotheses -/

/-- A 1×1 grid whose single cell is the no-data sentinel. -/
def gW1 : Grid ℚ :=
  { width := 1, height := 1, cellsize := 1, no_data := -9999,
    cell := fun _ _ => -9999 }

/-- A 2×1 grid of valid data cells. -/
def gW2 : Grid ℚ :=
  { width := 2, height := 1, cellsize := 1, no_data := -9999,
    cell := fun x _ => if x = 0 then 5 else 6 }

/-- A perfectly flat 5×5 grid, every cell 100, no no-data cells. -/
def flat5 (cs : ℚ) : Grid ℚ :=
  { width := 5, height := 5, cellsize := cs, no_data := -9999,
    cell := fun _ _ => 100 }

/-- The open list built by the first seeding loop. -/
def seedListTB (g : Grid ℚ) : List Cellz := (List.range g.width).flatMap (entTB g)

/-- The open list built by the second seeding loop. -/
def seedListLR (g : Grid ℚ) : List Cellz :=
  (List.range (g.height - 2)).flatMap (entLR g)

/-- The run invariant of the main loop: non-sentinel labels only on closed
cells, every queued cell closed, the label sentinel fixed at −1, and the
label counter at least 1. -/
def InvW (s : WState) : Prop :=
  (∀ p q : Int, s.labels.cell p q ≠ s.labels.no_data → s.closed.cell p q = true) ∧
  (∀ e ∈ s.opn, s.closed.cell e.x e.y = true) ∧
  (∀ e ∈ s.meander, s.closed.cell e.x e.y = true) ∧
  s.labels.no_data = -1 ∧ 1 ≤ s.clabel

/-- A 3×3 grid whose center cell is the no-data sentinel and whose boundary
cells are distinct valid elevations. -/
def g3c : Grid ℚ :=
  { width := 3, height := 3, cellsize := 1, no_data := -9999,
    cell := fun x y =>
      if x = 1 ∧ y = 1 then -9999
      else if x = 0 ∧ y = 0 then 10
      else if x = 1 ∧ y = 0 then 11
      else if x = 2 ∧ y = 0 then 12
      else if x = 0 ∧ y = 1 then 13
      else if x = 2 ∧ y = 1 then 14
      else if x = 0 ∧ y = 2 then 15
      else if x = 1 ∧ y = 2 then 16
      else 17 }

/-- The state of the concrete 2×1 grid after its highest open entry is
popped. -/
def wS1 : WState :=
  { seedState gW2 with opn := [⟨0, 0, 5⟩, ⟨0, 0, 5⟩, ⟨1, 0, 6⟩] }

/-- The state after the popped cell of `wS1` receives the fresh label 1 and
its neighbors are processed (all are out of grid or already closed). -/
def wS2 : WState :=
  { wS1 with labels := wS1.labels.set 1 0 wS1.clabel, clabel := wS1.clabel + 1 }

@[simp] theorem Grid.set_width {α : Type} (g : Grid α) (x y : Int) (v : α) :
    (g.set x y v).width = g.width := rfl

@[simp] theorem Grid.set_height {α : Type} (g : Grid α) (x y : Int) (v : α) :
    (g.set x y v).height = g.height := rfl

@[simp] theorem Grid.set_cellsize {α : Type} (g : Grid α) (x y : Int) (v : α) :
    (g.set x y v).cellsize = g.cellsize := rfl

@[simp] theorem Grid.set_no_data {α : Type} (g : Grid α) (x y : Int) (v : α) :
    (g.set x y v).no_data = g.no_data := rfl

theorem Grid.set_cell_self {α : Type} (g : Grid α) (x y : Int) (v : α) :
    (g.set x y v).cell x y = v := by
  simp [Grid.set]

theorem Grid.set_cell_of_ne {α : Type} (g : Grid α) (x y p q : Int) (v : α)
    (h : ¬(p = x ∧ q = y)) : (g.set x y v).cell p q = g.cell p q := by
  simp only [Grid.set]
  exact if_neg h

@[simp] theorem Grid.set_in_grid {α : Type} (g : Grid α) (x y p q : Int) (v : α) :
    (g.set x y v).in_grid p q = g.in_grid p q := rfl

/-! ## Claims C5-C8: terrain attributes and derived indices -/

/-- On the flat 5×5 grid the stencil helper takes the flat early-return
branch at every cell: slope 0, aspect −1, all curvatures 0. Needs only that
the abstracted square root maps 0 to 0. -/
theorem flat5_helper (rf : RealFuns) (cs : ℚ) (hsqrt : rf.sqrt 0 = 0) (x y : Int) :
    d8_terrain_attrib_helper rf (flat5 cs) x y =
      { rise_over_run := 0, aspect := -1, curvature := 0,
        profile_curvature := 0, planform_curvature := 0 } := by
  unfold d8_terrain_attrib_helper
  simp only [flat5, ite_self]
  norm_num [hsqrt]

/-- C5: if the flow-accumulation grid and the percent-slope grid differ in
width or height, d8_SPI and d8_CTI each report the mismatch and abort
(embedded as `Except.error`, which carries no result grid, mirroring
`exit(-1)` before any write to `result`); with equal dimensions no such
error occurs. -/
theorem spi_cti_dimension_guard (rf : RealFuns) (fa ps : Grid ℚ) :
    ((fa.width ≠ ps.width ∨ fa.height ≠ ps.height) →
      (∃ msg, d8_SPI rf fa ps = Except.error msg) ∧
      (∃ msg, d8_CTI rf fa ps = Except.error msg)) ∧
    (fa.width = ps.width → fa.height = ps.height →
      (∃ r, d8_SPI rf fa ps = Except.ok r) ∧
      (∃ r, d8_CTI rf fa ps = Except.ok r)) := by
  constructor
  · intro h
    exact ⟨⟨_, by unfold d8_SPI; rw [if_pos h]⟩, ⟨_, by unfold d8_CTI; rw [if_pos h]⟩⟩
  · intro h1 h2
    have hn : ¬(fa.width ≠ ps.width ∨ fa.height ≠ ps.height) := by
      push_neg
      exact ⟨h1, h2⟩
    exact ⟨⟨_, by unfold d8_SPI; rw [if_neg hn]⟩, ⟨_, by unfold d8_CTI; rw [if_neg hn]⟩⟩

/-- Witness for C5 at concrete grids: a 1×1 against a 2×1 grid errors, a
1×1 against itself succeeds. -/
theorem spi_cti_dimension_guard_witness :
    ((∃ msg, d8_SPI rfZero gW1 gW2 = Except.error msg) ∧
     (∃ msg, d8_CTI rfZero gW1 gW2 = Except.error msg)) ∧
    ((∃ r, d8_SPI rfZero gW1 gW1 = Except.ok r) ∧
     (∃ r, d8_CTI rfZero gW1 gW1 = Except.ok r)) :=
  ⟨(spi_cti_dimension_guard rfZero gW1 gW2).1 (Or.inl (by decide)),
   (spi_cti_dimension_guard rfZero gW1 gW1).2 rfl rfl⟩

/-- C6: for every input grid and attribute selector, d8_terrain_attribute
yields a grid with the input's dimensions and cell size, no-data sentinel
fixed to −99999 independently of the input's sentinel, and value −99999 at
every cell whose input elevation is the input's no-data sentinel. -/
theorem terrain_attribute_output_props (rf : RealFuns) (g : Grid ℚ)
    (attrib : TAttrib) :
    (d8_terrain_attribute rf g attrib).width = g.width ∧
    (d8_terrain_attribute rf g attrib).height = g.height ∧
    (d8_terrain_attribute rf g attrib).cellsize = g.cellsize ∧
    (d8_terrain_attribute rf g attrib).no_data = -99999 ∧
    ∀ x y : Int, g.cell x y = g.no_data →
      (d8_terrain_attribute rf g attrib).cell x y = -99999 := by
  refine ⟨rfl, rfl, rfl, rfl, ?_⟩
  intro x y h
  simp [d8_terrain_attribute, h]

/-- Witness for C6: the no-data cell of the concrete 1×1 grid maps to
−99999. -/
theorem terrain_attribute_output_props_witness :
    (d8_terrain_attribute rfZero gW1 TAttrib.aspect).cell 0 0 = -99999 :=
  (terrain_attribute_output_props rfZero gW1 TAttrib.aspect).2.2.2.2 0 0 (by decide)

/-- C7: on the perfectly flat 5×5 all-100 grid, every interior cell gets
rise-over-run slope 0, aspect −1, curvature 0, profile curvature 0 and
planform curvature 0, for any cell size and any square-root stand-in that
maps 0 to 0. -/
theorem flat_plane_attributes (rf : RealFuns) (cs : ℚ) (hsqrt : rf.sqrt 0 = 0)
    (x y : Int) (_hx1 : 1 ≤ x) (_hx2 : x ≤ 3) (_hy1 : 1 ≤ y) (_hy2 : y ≤ 3) :
    (d8_terrain_attribute rf (flat5 cs) TAttrib.slope_riserun).cell x y = 0 ∧
    (d8_terrain_attribute rf (flat5 cs) TAttrib.aspect).cell x y = -1 ∧
    (d8_terrain_attribute rf (flat5 cs) TAttrib.curvature).cell x y = 0 ∧
    (d8_terrain_attribute rf (flat5 cs) TAttrib.profile_curvature).cell x y = 0 ∧
    (d8_terrain_attribute rf (flat5 cs) TAttrib.planform_curvature).cell x y = 0 := by
  have h := flat5_helper rf cs hsqrt x y
  have hcell : (flat5 cs).cell x y = 100 := rfl
  have hnd : (flat5 cs).no_data = -9999 := rfl
  refine ⟨?_, ?_, ?_, ?_, ?_⟩ <;>
    · simp only [d8_terrain_attribute, hcell, hnd, h]
      norm_num

/-- Witness for C7 at the center cell (2,2) and cell size 1, with the
concrete function bundle. -/
theorem flat_plane_attributes_witness :
    (d8_terrain_attribute rfZero (flat5 1) TAttrib.slope_riserun).cell 2 2 = 0 ∧
    (d8_terrain_attribute rfZero (flat5 1) TAttrib.aspect).cell 2 2 = -1 ∧
    (d8_terrain_attribute rfZero (flat5 1) TAttrib.curvature).cell 2 2 = 0 ∧
    (d8_terrain_attribute rfZero (flat5 1) TAttrib.profile_curvature).cell 2 2 = 0 ∧
    (d8_terrain_attribute rfZero (flat5 1) TAttrib.planform_curvature).cell 2 2 = 0 :=
  flat_plane_attributes rfZero 1 rfl 2 2 (by norm_num) (by norm_num) (by norm_num)
    (by norm_num)

/-- C8: with equally-sized inputs, d8_SPI and d8_CTI succeed and every
output cell is the sentinel −1 when either input cell equals its grid's
no-data sentinel, and otherwise the respective log-based formula (SPI
multiplies by the slope factor, CTI divides by it). -/
theorem spi_cti_nodata_formula (rf : RealFuns) (fa ps : Grid ℚ)
    (hw : fa.width = ps.width) (hh : fa.height = ps.height) :
    ∃ r rc, d8_SPI rf fa ps = Except.ok r ∧ d8_CTI rf fa ps = Except.ok rc ∧
      ∀ x y : Int,
        r.cell x y =
          (if fa.cell x y = fa.no_data ∨ ps.cell x y = ps.no_data then (-1 : ℚ)
           else rf.rlog (fa.cellsize * (fa.cell x y + 0.001) *
             (ps.cell x y / 100 + 0.001))) ∧
        rc.cell x y =
          (if fa.cell x y = fa.no_data ∨ ps.cell x y = ps.no_data then (-1 : ℚ)
           else rf.rlog (fa.cellsize * (fa.cell x y + 0.001) /
             (ps.cell x y / 100 + 0.001))) := by
  have hn : ¬(fa.width ≠ ps.width ∨ fa.height ≠ ps.height) := by
    push_neg
    exact ⟨hw, hh⟩
  refine ⟨_, _, by unfold d8_SPI; rw [if_neg hn], by unfold d8_CTI; rw [if_neg hn], ?_⟩
  intro x y
  exact ⟨rfl, rfl⟩

/-- Witness for C8 at a concrete pair of equally-sized grids containing a
no-data cell. -/
theorem spi_cti_nodata_formula_witness :
    ∃ r rc, d8_SPI rfZero gW1 gW1 = Except.ok r ∧
      d8_CTI rfZero gW1 gW1 = Except.ok rc ∧
      ∀ x y : Int,
        r.cell x y =
          (if gW1.cell x y = gW1.no_data ∨ gW1.cell x y = gW1.no_data then (-1 : ℚ)
           else rfZero.rlog (gW1.cellsize * (gW1.cell x y + 0.001) *
             (gW1.cell x y / 100 + 0.001))) ∧
        rc.cell x y =
          (if gW1.cell x y = gW1.no_data ∨ gW1.cell x y = gW1.no_data then (-1 : ℚ)
           else rfZero.rlog (gW1.cellsize * (gW1.cell x y + 0.001) /
             (gW1.cell x y / 100 + 0.001))) :=
  spi_cti_nodata_formula rfZero gW1 gW1 rfl rfl

/-! ## Generic lemmas about folds, counting and the frontier structures -/

/-- A fold preserves any invariant its step preserves. -/
theorem foldl_inv {σ β : Type} (P : σ → Prop) (f : σ → β → σ) (l : List β)
    (hf : ∀ s x, x ∈ l → P s → P (f s x)) (s : σ) (hs : P s) :
    P (List.foldl f s l) := by
  induction l generalizing s with
  | nil => exact hs
  | cons a t ih =>
    exact ih (fun s x hx => hf s x (List.mem_cons_of_mem a hx)) _
      (hf s a (List.mem_cons_self a t) hs)

theorem countP_flatMap {α β : Type} (l : List α) (f : α → List β) (p : β → Bool) :
    ((l.flatMap f).countP p) = (l.map fun a => (f a).countP p).sum := by
  induction l with
  | nil => rfl
  | cons a t ih =>
    simp [List.flatMap_cons, List.countP_append, ih]

theorem sum_map_range_zero (n : ℕ) (f : ℕ → ℕ) (h : ∀ i, i < n → f i = 0) :
    ((List.range n).map f).sum = 0 := by
  induction n with
  | zero => rfl
  | succ m ih =>
    rw [List.range_succ, List.map_append, List.sum_append]
    rw [ih (fun i hi => h i (Nat.lt_succ_of_lt hi))]
    simp [h m (Nat.lt_succ_self m)]

theorem sum_map_range_indicator (n k : ℕ) (hk : k < n) (f : ℕ → ℕ)
    (h : ∀ i, i < n → i ≠ k → f i = 0) :
    ((List.range n).map f).sum = f k := by
  induction n with
  | zero => exact absurd hk (Nat.not_lt_zero k)
  | succ m ih =>
    rw [List.range_succ, List.map_append, List.sum_append]
    rcases Nat.lt_succ_iff_lt_or_eq.mp hk with hlt | heq
    · rw [ih hlt (fun i hi hne => h i (Nat.lt_succ_of_lt hi) hne)]
      simp [h m (Nat.lt_succ_self m) (by omega)]
    · subst heq
      rw [sum_map_range_zero _ _ (fun i hi => h i (Nat.lt_succ_of_lt hi) (by omega))]
      simp

/-- A strictly smaller count after one element flips from satisfying the
predicate to not, while no element moves the other way. -/
theorem countP_lt_of_flip {α : Type} {p1 p2 : α → Bool} (l : List α) (a : α)
    (ha : a ∈ l) (h1 : p1 a = true) (h2 : p2 a = false)
    (hmono : ∀ b, p2 b = true → p1 b = true) :
    l.countP p2 < l.countP p1 := by
  induction l with
  | nil => cases ha
  | cons b t ih =>
    rw [List.countP_cons, List.countP_cons]
    rcases List.mem_cons.mp ha with rfl | hat
    · have hle : t.countP p2 ≤ t.countP p1 :=
        List.countP_mono_left (fun x _ hx => hmono x hx)
      simp [h1, h2]
      omega
    · have := ih hat
      have hb : (if p2 b = true then 1 else 0) ≤ (if p1 b = true then 1 else 0) := by
        by_cases hb2 : p2 b = true
        · rw [if_pos hb2, if_pos (hmono b hb2)]
        · rw [if_neg hb2]
          omega
      omega

theorem popMaxZ_eq_none {l : List Cellz} : popMaxZ l = none ↔ l = [] := by
  cases l with
  | nil => simp [popMaxZ]
  | cons c rest =>
    simp only [popMaxZ]
    constructor
    · intro h
      cases hr : popMaxZ rest with
      | none => rw [hr] at h; cases h
      | some pr => rw [hr] at h; rcases pr with ⟨m, rest'⟩; dsimp at h; split at h <;> cases h
    · intro h
      cases h

theorem popMaxZ_mem {l : List Cellz} {c : Cellz} {rest : List Cellz}
    (h : popMaxZ l = some (c, rest)) : c ∈ l := by
  induction l generalizing c rest with
  | nil => cases h
  | cons a t ih =>
    simp only [popMaxZ] at h
    cases hr : popMaxZ t with
    | none =>
      rw [hr] at h
      cases h
      exact List.mem_cons_self _ _
    | some pr =>
      rcases pr with ⟨m, rest'⟩
      rw [hr] at h
      dsimp at h
      split at h
      · cases h
        exact List.mem_cons_of_mem _ (ih hr)
      · cases h
        exact List.mem_cons_self _ _

theorem popMaxZ_rest_mem {l : List Cellz} {c : Cellz} {rest : List Cellz}
    (h : popMaxZ l = some (c, rest)) : ∀ e ∈ rest, e ∈ l := by
  induction l generalizing c rest with
  | nil => cases h
  | cons a t ih =>
    simp only [popMaxZ] at h
    cases hr : popMaxZ t with
    | none =>
      rw [hr] at h
      cases h
      intro e he
      cases he
    | some pr =>
      rcases pr with ⟨m, rest'⟩
      rw [hr] at h
      dsimp at h
      split at h
      · cases h
        intro e he
        rcases List.mem_cons.mp he with rfl | he'
        · exact List.mem_cons_self _ _
        · exact List.mem_cons_of_mem _ (ih hr e he')
      · cases h
        intro e he
        exact List.mem_cons_of_mem _ he

theorem popMaxZ_length {l : List Cellz} {c : Cellz} {rest : List Cellz}
    (h : popMaxZ l = some (c, rest)) : rest.length + 1 = l.length := by
  induction l generalizing c rest with
  | nil => cases h
  | cons a t ih =>
    simp only [popMaxZ] at h
    cases hr : popMaxZ t with
    | none =>
      rw [hr] at h
      cases h
      have : t = [] := popMaxZ_eq_none.mp hr
      subst this
      rfl
    | some pr =>
      rcases pr with ⟨m, rest'⟩
      rw [hr] at h
      dsimp at h
      split at h
      · cases h
        have := ih hr
        simp only [List.length_cons]
        omega
      · cases h
        simp only [List.length_cons]

/-- Everything `popCell` guarantees about a successful pop: the grids and
counter are untouched, the popped cell came from one of the two frontier
structures, the remaining entries were already present, and the combined
frontier size drops by one. -/
theorem popCell_spec {s : WState} {c : Cellz} {s1 : WState}
    (h : popCell s = some (c, s1)) :
    s1.elev = s.elev ∧ s1.labels = s.labels ∧ s1.closed = s.closed ∧
    s1.clabel = s.clabel ∧ (c ∈ s.opn ∨ c ∈ s.meander) ∧
    (∀ e ∈ s1.opn, e ∈ s.opn) ∧ (∀ e ∈ s1.meander, e ∈ s.meander) ∧
    s1.opn.length + s1.meander.length + 1 = s.opn.length + s.meander.length := by
  unfold popCell at h
  cases hm : s.meander with
  | cons m t =>
    rw [hm] at h
    cases h
    refine ⟨rfl, rfl, rfl, rfl, Or.inr (List.mem_cons_self _ _),
      fun e he => he, fun e he => List.mem_cons_of_mem _ he, ?_⟩
    simp
    omega
  | nil =>
    rw [hm] at h
    cases hp : popMaxZ s.opn with
    | none => rw [hp] at h; cases h
    | some pr =>
      rcases pr with ⟨c', rest⟩
      rw [hp] at h
      cases h
      refine ⟨rfl, rfl, rfl, rfl, Or.inl (popMaxZ_mem hp),
        fun e he => popMaxZ_rest_mem hp e he,
        fun e he => absurd he (List.not_mem_nil e), ?_⟩
      have := popMaxZ_length hp
      simp
      omega

theorem popCell_eq_none {s : WState} :
    popCell s = none ↔ s.opn = [] ∧ s.meander = [] := by
  unfold popCell
  cases hm : s.meander with
  | cons m t => simp
  | nil =>
    cases hp : popMaxZ s.opn with
    | none => simpa using popMaxZ_eq_none.mp hp
    | some pr =>
      rcases pr with ⟨c, rest⟩
      simp only []
      constructor
      · intro h; cases h
      · rintro ⟨h1, h2⟩
        rw [h1] at hp
        cases hp

/-! ## Per-step lemmas about processNeighbor -/

theorem bool_eq_false {b : Bool} (h : ¬ b = true) : b = false := by
  cases b
  · rfl
  · exact absurd rfl h

theorem Grid.cell_set {α : Type} (g : Grid α) (x y p q : Int) (v : α) :
    (g.set x y v).cell p q = if p = x ∧ q = y then v else g.cell p q := rfl

theorem closed_set_cell (g : Grid Bool) (x y p q : Int)
    (h : (p = x ∧ q = y) ∨ g.cell p q = true) :
    (g.set x y true).cell p q = true := by
  rw [Grid.cell_set]
  by_cases hpq : p = x ∧ q = y
  · rw [if_pos hpq]
  · rcases h with h | h
    · exact absurd h hpq
    · rw [if_neg hpq]
      exact h

/-- The full case analysis of one neighbor-processing step: either the
neighbor is skipped (out of grid or closed) and the state is unchanged, or
it is labeled and closed and then pushed onto the meander stack (elevation
at most the flood level, elevation conditionally overwritten) or onto the
open queue (elevation above the flood level). -/
theorem pn_cases (alter : Bool) (c : Cellz) (s : WState) (d : Int × Int) :
    (processNeighbor alter c s d = s ∧
      (¬ s.elev.in_grid (c.x + d.1) (c.y + d.2) = true ∨
        s.closed.cell (c.x + d.1) (c.y + d.2) = true)) ∨
    (s.elev.in_grid (c.x + d.1) (c.y + d.2) = true ∧
      s.closed.cell (c.x + d.1) (c.y + d.2) = false ∧
      ((s.elev.cell (c.x + d.1) (c.y + d.2) ≤ c.z ∧
        processNeighbor alter c s d =
          { elev := if alter then s.elev.set (c.x + d.1) (c.y + d.2) c.z else s.elev,
            labels := s.labels.set (c.x + d.1) (c.y + d.2) (s.labels.cell c.x c.y),
            closed := s.closed.set (c.x + d.1) (c.y + d.2) true,
            opn := s.opn,
            meander := ⟨c.x + d.1, c.y + d.2, c.z⟩ :: s.meander,
            clabel := s.clabel }) ∨
       (¬ s.elev.cell (c.x + d.1) (c.y + d.2) ≤ c.z ∧
        processNeighbor alter c s d =
          { elev := s.elev,
            labels := s.labels.set (c.x + d.1) (c.y + d.2) (s.labels.cell c.x c.y),
            closed := s.closed.set (c.x + d.1) (c.y + d.2) true,
            opn := s.opn ++
              [⟨c.x + d.1, c.y + d.2, s.elev.cell (c.x + d.1) (c.y + d.2)⟩],
            meander := s.meander,
            clabel := s.clabel }))) := by
  unfold processNeighbor
  dsimp only
  by_cases hg : s.elev.in_grid (c.x + d.1) (c.y + d.2) = true
  · rw [if_neg (not_not_intro hg)]
    by_cases hc : s.closed.cell (c.x + d.1) (c.y + d.2) = true
    · rw [if_pos hc]
      exact Or.inl ⟨rfl, Or.inr hc⟩
    · rw [if_neg hc]
      by_cases hz : s.elev.cell (c.x + d.1) (c.y + d.2) ≤ c.z
      · rw [if_pos hz]
        exact Or.inr ⟨hg, bool_eq_false hc, Or.inl ⟨hz, rfl⟩⟩
      · rw [if_neg hz]
        exact Or.inr ⟨hg, bool_eq_false hc, Or.inr ⟨hz, rfl⟩⟩
  · rw [if_pos hg]
    exact Or.inl ⟨rfl, Or.inl hg⟩

theorem pn_basic (alter : Bool) (c : Cellz) (s : WState) (d : Int × Int) :
    (processNeighbor alter c s d).elev.width = s.elev.width ∧
    (processNeighbor alter c s d).elev.height = s.elev.height ∧
    (processNeighbor alter c s d).elev.no_data = s.elev.no_data ∧
    (processNeighbor alter c s d).labels.no_data = s.labels.no_data ∧
    (processNeighbor alter c s d).clabel = s.clabel := by
  rcases pn_cases alter c s d with ⟨heq, -⟩ | ⟨-, -, ⟨-, heq⟩ | ⟨-, heq⟩⟩ <;>
    rw [heq] <;> try exact ⟨rfl, rfl, rfl, rfl, rfl⟩
  cases alter <;> exact ⟨rfl, rfl, rfl, rfl, rfl⟩

theorem pn_closed_mono (alter : Bool) (c : Cellz) (s : WState) (d : Int × Int)
    (p q : Int) (h : s.closed.cell p q = true) :
    (processNeighbor alter c s d).closed.cell p q = true := by
  rcases pn_cases alter c s d with ⟨heq, -⟩ | ⟨-, -, ⟨-, heq⟩ | ⟨-, heq⟩⟩ <;> rw [heq]
  · exact h
  · exact closed_set_cell s.closed _ _ _ _ (Or.inr h)
  · exact closed_set_cell s.closed _ _ _ _ (Or.inr h)

theorem pn_labels_of_closed (alter : Bool) (c : Cellz) (s : WState) (d : Int × Int)
    (p q : Int) (h : s.closed.cell p q = true) :
    (processNeighbor alter c s d).labels.cell p q = s.labels.cell p q := by
  rcases pn_cases alter c s d with ⟨heq, -⟩ | ⟨-, hc, ⟨-, heq⟩ | ⟨-, heq⟩⟩ <;> rw [heq]
  all_goals
    show (s.labels.set (c.x + d.1) (c.y + d.2) (s.labels.cell c.x c.y)).cell p q =
      s.labels.cell p q
    rw [Grid.cell_set, if_neg]
    rintro ⟨rfl, rfl⟩
    rw [h] at hc
    cases hc

theorem pn_label_change (alter : Bool) (c : Cellz) (s : WState) (d : Int × Int)
    (p q : Int)
    (hne : (processNeighbor alter c s d).labels.cell p q ≠ s.labels.cell p q) :
    p = c.x + d.1 ∧ q = c.y + d.2 ∧ s.elev.in_grid p q = true ∧
    s.closed.cell p q = false ∧
    (processNeighbor alter c s d).labels.cell p q = s.labels.cell c.x c.y ∧
    (processNeighbor alter c s d).closed.cell p q = true := by
  rcases pn_cases alter c s d with ⟨heq, -⟩ | ⟨hg, hc, ⟨-, heq⟩ | ⟨-, heq⟩⟩ <;>
    rw [heq] at hne ⊢
  · exact absurd rfl hne
  all_goals
    replace hne : (s.labels.set (c.x + d.1) (c.y + d.2)
      (s.labels.cell c.x c.y)).cell p q ≠ s.labels.cell p q := hne
    rw [Grid.cell_set] at hne
    by_cases hpq : p = c.x + d.1 ∧ q = c.y + d.2
    case neg => exact absurd (if_neg hpq) hne
    all_goals
      obtain ⟨rfl, rfl⟩ := hpq
      refine ⟨rfl, rfl, hg, hc, ?_, ?_⟩
      · show (s.labels.set (c.x + d.1) (c.y + d.2)
          (s.labels.cell c.x c.y)).cell (c.x + d.1) (c.y + d.2) = s.labels.cell c.x c.y
        rw [Grid.cell_set, if_pos ⟨rfl, rfl⟩]
      · exact closed_set_cell s.closed _ _ _ _ (Or.inl ⟨rfl, rfl⟩)

theorem pn_elev_mono (alter : Bool) (c : Cellz) (s : WState) (d : Int × Int)
    (p q : Int) :
    s.elev.cell p q ≤ (processNeighbor alter c s d).elev.cell p q := by
  rcases pn_cases alter c s d with ⟨heq, -⟩ | ⟨-, -, ⟨hz, heq⟩ | ⟨-, heq⟩⟩ <;> rw [heq]
  · cases alter
    · exact le_refl _
    · by_cases hpq : p = c.x + d.1 ∧ q = c.y + d.2
      · obtain ⟨rfl, rfl⟩ := hpq
        have hcell : (s.elev.set (c.x + d.1) (c.y + d.2) c.z).cell
            (c.x + d.1) (c.y + d.2) = c.z := by
          rw [Grid.cell_set, if_pos ⟨rfl, rfl⟩]
        show s.elev.cell (c.x + d.1) (c.y + d.2) ≤
          (s.elev.set (c.x + d.1) (c.y + d.2) c.z).cell (c.x + d.1) (c.y + d.2)
        rw [hcell]
        exact hz
      · show s.elev.cell p q ≤ (s.elev.set (c.x + d.1) (c.y + d.2) c.z).cell p q
        rw [Grid.cell_set, if_neg hpq]

theorem pn_elev_noalter (c : Cellz) (s : WState) (d : Int × Int) :
    (processNeighbor false c s d).elev = s.elev := by
  rcases pn_cases false c s d with ⟨heq, -⟩ | ⟨-, -, ⟨-, heq⟩ | ⟨-, heq⟩⟩ <;> rw [heq]
  rfl

theorem pn_labels_at_c (alter : Bool) (c : Cellz) (s : WState) (d : Int × Int)
    (hd : d.1 ≠ 0 ∨ d.2 ≠ 0) :
    (processNeighbor alter c s d).labels.cell c.x c.y = s.labels.cell c.x c.y := by
  by_cases hch :
    (processNeighbor alter c s d).labels.cell c.x c.y = s.labels.cell c.x c.y
  · exact hch
  · obtain ⟨hp, hq, -, -, -, -⟩ := pn_label_change alter c s d c.x c.y hch
    rcases hd with h | h
    · exact absurd (by omega : d.1 = 0) h
    · exact absurd (by omega : d.2 = 0) h

theorem pn_mem_opn (alter : Bool) (c : Cellz) (s : WState) (d : Int × Int)
    (e : Cellz) (he : e ∈ (processNeighbor alter c s d).opn) :
    e ∈ s.opn ∨ c.z ≤ e.z := by
  rcases pn_cases alter c s d with ⟨heq, -⟩ | ⟨-, -, ⟨-, heq⟩ | ⟨hz, heq⟩⟩ <;>
    rw [heq] at he
  · exact Or.inl he
  · exact Or.inl he
  · replace he : e ∈ s.opn ++
      [⟨c.x + d.1, c.y + d.2, s.elev.cell (c.x + d.1) (c.y + d.2)⟩] := he
    rcases List.mem_append.mp he with h | h
    · exact Or.inl h
    · rcases List.mem_singleton.mp h with rfl
      exact Or.inr (le_of_lt (lt_of_not_le hz))

theorem pn_mem_meander (alter : Bool) (c : Cellz) (s : WState) (d : Int × Int)
    (e : Cellz) (he : e ∈ (processNeighbor alter c s d).meander) :
    e ∈ s.meander ∨ c.z ≤ e.z := by
  rcases pn_cases alter c s d with ⟨heq, -⟩ | ⟨-, -, ⟨-, heq⟩ | ⟨-, heq⟩⟩ <;>
    rw [heq] at he
  · exact Or.inl he
  · replace he : e ∈ (⟨c.x + d.1, c.y + d.2, c.z⟩ : Cellz) :: s.meander := he
    rcases List.mem_cons.mp he with rfl | h
    · exact Or.inr (le_refl _)
    · exact Or.inl h
  · exact Or.inl he

theorem pn_invQ (alter : Bool) (c : Cellz) (s : WState) (d : Int × Int)
    (ho : ∀ e ∈ s.opn, s.closed.cell e.x e.y = true)
    (hm : ∀ e ∈ s.meander, s.closed.cell e.x e.y = true) :
    (∀ e ∈ (processNeighbor alter c s d).opn,
      (processNeighbor alter c s d).closed.cell e.x e.y = true) ∧
    (∀ e ∈ (processNeighbor alter c s d).meander,
      (processNeighbor alter c s d).closed.cell e.x e.y = true) := by
  rcases pn_cases alter c s d with ⟨heq, -⟩ | ⟨-, -, ⟨-, heq⟩ | ⟨-, heq⟩⟩ <;> rw [heq]
  · exact ⟨ho, hm⟩
  · constructor
    · intro e he
      replace he : e ∈ s.opn := he
      exact closed_set_cell s.closed _ _ _ _ (Or.inr (ho e he))
    · intro e he
      replace he : e ∈ (⟨c.x + d.1, c.y + d.2, c.z⟩ : Cellz) :: s.meander := he
      rcases List.mem_cons.mp he with rfl | h
      · exact closed_set_cell s.closed _ _ _ _ (Or.inl ⟨rfl, rfl⟩)
      · exact closed_set_cell s.closed _ _ _ _ (Or.inr (hm e h))
  · constructor
    · intro e he
      replace he : e ∈ s.opn ++
        [⟨c.x + d.1, c.y + d.2, s.elev.cell (c.x + d.1) (c.y + d.2)⟩] := he
      rcases List.mem_append.mp he with h | h
      · exact closed_set_cell s.closed _ _ _ _ (Or.inr (ho e h))
      · rcases List.mem_singleton.mp h with rfl
        exact closed_set_cell s.closed _ _ _ _ (Or.inl ⟨rfl, rfl⟩)
    · intro e he
      replace he : e ∈ s.meander := he
      exact closed_set_cell s.closed _ _ _ _ (Or.inr (hm e he))

theorem pn_invLab (alter : Bool) (c : Cellz) (s : WState) (d : Int × Int)
    (hL : ∀ p q : Int, s.labels.cell p q ≠ s.labels.no_data →
      s.closed.cell p q = true) :
    ∀ p q : Int, (processNeighbor alter c s d).labels.cell p q ≠
        (processNeighbor alter c s d).labels.no_data →
      (processNeighbor alter c s d).closed.cell p q = true := by
  intro p q hne
  rw [(pn_basic alter c s d).2.2.2.1] at hne
  by_cases hch : (processNeighbor alter c s d).labels.cell p q = s.labels.cell p q
  · rw [hch] at hne
    exact pn_closed_mono alter c s d p q (hL p q hne)
  · exact (pn_label_change alter c s d p q hch).2.2.2.2.2

theorem pair_mem_allCells {α : Type} (g : Grid α) (a b : Nat)
    (ha : a < g.width) (hb : b < g.height) :
    ((a : Int), (b : Int)) ∈ allCells g := by
  unfold allCells
  apply List.mem_flatMap.mpr
  exact ⟨a, List.mem_range.mpr ha,
    List.mem_map_of_mem _ (List.mem_range.mpr hb)⟩

theorem mem_allCells {α : Type} (g : Grid α) (x y : Int)
    (h : g.in_grid x y = true) : (x, y) ∈ allCells g := by
  unfold Grid.in_grid at h
  simp only [Bool.and_eq_true, decide_eq_true_eq] at h
  obtain ⟨⟨⟨h1, h2⟩, h3⟩, h4⟩ := h
  have hx : (x.toNat : Int) = x := Int.toNat_of_nonneg h1
  have hy : (y.toNat : Int) = y := Int.toNat_of_nonneg h3
  rw [← hx, ← hy]
  exact pair_mem_allCells g x.toNat y.toNat (by omega) (by omega)

theorem closed_flip_count (s : WState) (nx ny : Int)
    (hg : s.elev.in_grid nx ny = true) (hc : s.closed.cell nx ny = false) :
    (allCells s.elev).countP
        (fun p => !(s.closed.set nx ny true).cell p.1 p.2) <
      (allCells s.elev).countP (fun p => !s.closed.cell p.1 p.2) := by
  apply countP_lt_of_flip _ (nx, ny) (mem_allCells s.elev nx ny hg)
  · simp only [Bool.not_eq_true']
    exact hc
  · have hcl : (s.closed.set nx ny true).cell nx ny = true :=
      closed_set_cell s.closed _ _ _ _ (Or.inl ⟨rfl, rfl⟩)
    simp [hcl]
  · intro b hb
    simp only [Bool.not_eq_true'] at hb ⊢
    rw [Grid.cell_set] at hb
    by_cases hpq : b.1 = nx ∧ b.2 = ny
    · rw [if_pos hpq] at hb
      cases hb
    · rwa [if_neg hpq] at hb

theorem measureW_def (s : WState) : measureW s =
    (allCells s.elev).countP (fun p => !s.closed.cell p.1 p.2) +
    s.opn.length + s.meander.length := rfl

theorem allCells_set {α : Type} (g : Grid α) (x y : Int) (v : α) :
    allCells (g.set x y v) = allCells g := rfl

theorem pn_measure (alter : Bool) (c : Cellz) (s : WState) (d : Int × Int) :
    measureW (processNeighbor alter c s d) ≤ measureW s := by
  rcases pn_cases alter c s d with ⟨heq, -⟩ | ⟨hg, hc, ⟨-, heq⟩ | ⟨-, heq⟩⟩
  · rw [heq]
  · have h2 := closed_flip_count s (c.x + d.1) (c.y + d.2) hg hc
    cases alter <;>
    · rw [heq]
      simp only [measureW_def]
      simp only [Bool.false_eq_true, eq_self_iff_true, if_true, if_false,
        allCells_set, List.length_cons, List.length_append,
        List.length_singleton, List.length_nil]
      omega
  · have h2 := closed_flip_count s (c.x + d.1) (c.y + d.2) hg hc
    rw [heq]
    simp only [measureW_def]
    simp only [List.length_cons, List.length_append, List.length_singleton,
      List.length_nil]
    omega

/-! ## Lemmas about the whole neighbor loop (a fold over the offsets) -/

theorem fold_basic (alter : Bool) (c : Cellz) (ds : List (Int × Int)) (s : WState) :
    (ds.foldl (processNeighbor alter c) s).elev.width = s.elev.width ∧
    (ds.foldl (processNeighbor alter c) s).elev.height = s.elev.height ∧
    (ds.foldl (processNeighbor alter c) s).elev.no_data = s.elev.no_data ∧
    (ds.foldl (processNeighbor alter c) s).labels.no_data = s.labels.no_data ∧
    (ds.foldl (processNeighbor alter c) s).clabel = s.clabel := by
  apply foldl_inv (fun t : WState => t.elev.width = s.elev.width ∧
    t.elev.height = s.elev.height ∧ t.elev.no_data = s.elev.no_data ∧
    t.labels.no_data = s.labels.no_data ∧ t.clabel = s.clabel)
  · intro t d _ ht
    obtain ⟨h1, h2, h3, h4, h5⟩ := pn_basic alter c t d
    exact ⟨h1.trans ht.1, h2.trans ht.2.1, h3.trans ht.2.2.1,
      h4.trans ht.2.2.2.1, h5.trans ht.2.2.2.2⟩
  · exact ⟨rfl, rfl, rfl, rfl, rfl⟩

theorem fold_closed_mono (alter : Bool) (c : Cellz) (ds : List (Int × Int))
    (s : WState) (p q : Int) (h : s.closed.cell p q = true) :
    (ds.foldl (processNeighbor alter c) s).closed.cell p q = true := by
  apply foldl_inv (fun t : WState => t.closed.cell p q = true)
  · intro t d _ ht
    exact pn_closed_mono alter c t d p q ht
  · exact h

theorem fold_labels_of_closed (alter : Bool) (c : Cellz) (ds : List (Int × Int))
    (s : WState) (p q : Int) (h : s.closed.cell p q = true) :
    (ds.foldl (processNeighbor alter c) s).closed.cell p q = true ∧
    (ds.foldl (processNeighbor alter c) s).labels.cell p q = s.labels.cell p q := by
  apply foldl_inv (fun t : WState => t.closed.cell p q = true ∧
    t.labels.cell p q = s.labels.cell p q)
  · intro t d _ ht
    exact ⟨pn_closed_mono alter c t d p q ht.1,
      (pn_labels_of_closed alter c t d p q ht.1).trans ht.2⟩
  · exact ⟨h, rfl⟩

theorem fold_elev_mono (alter : Bool) (c : Cellz) (ds : List (Int × Int))
    (s : WState) (p q : Int) :
    s.elev.cell p q ≤ (ds.foldl (processNeighbor alter c) s).elev.cell p q := by
  apply foldl_inv (fun t : WState => s.elev.cell p q ≤ t.elev.cell p q)
  · intro t d _ ht
    exact le_trans ht (pn_elev_mono alter c t d p q)
  · exact le_refl _

theorem fold_elev_noalter (c : Cellz) (ds : List (Int × Int)) (s : WState) :
    (ds.foldl (processNeighbor false c) s).elev = s.elev := by
  apply foldl_inv (fun t : WState => t.elev = s.elev)
  · intro t d _ ht
    exact (pn_elev_noalter c t d).trans ht
  · rfl

theorem fold_labels_at_c (alter : Bool) (c : Cellz) (ds : List (Int × Int))
    (hds : ∀ d ∈ ds, d.1 ≠ 0 ∨ d.2 ≠ 0) (s : WState) :
    (ds.foldl (processNeighbor alter c) s).labels.cell c.x c.y =
      s.labels.cell c.x c.y := by
  apply foldl_inv (fun t : WState => t.labels.cell c.x c.y = s.labels.cell c.x c.y)
  · intro t d hd ht
    exact (pn_labels_at_c alter c t d (hds d hd)).trans ht
  · rfl

theorem fold_mem_opn (alter : Bool) (c : Cellz) (ds : List (Int × Int)) :
    ∀ s : WState, ∀ e ∈ (ds.foldl (processNeighbor alter c) s).opn,
      e ∈ s.opn ∨ c.z ≤ e.z := by
  induction ds with
  | nil =>
    intro s e he
    exact Or.inl he
  | cons d t ih =>
    intro s e he
    rw [List.foldl_cons] at he
    rcases ih (processNeighbor alter c s d) e he with h | h
    · exact pn_mem_opn alter c s d e h
    · exact Or.inr h

theorem fold_mem_meander (alter : Bool) (c : Cellz) (ds : List (Int × Int)) :
    ∀ s : WState, ∀ e ∈ (ds.foldl (processNeighbor alter c) s).meander,
      e ∈ s.meander ∨ c.z ≤ e.z := by
  induction ds with
  | nil =>
    intro s e he
    exact Or.inl he
  | cons d t ih =>
    intro s e he
    rw [List.foldl_cons] at he
    rcases ih (processNeighbor alter c s d) e he with h | h
    · exact pn_mem_meander alter c s d e h
    · exact Or.inr h

theorem fold_invQ (alter : Bool) (c : Cellz) (ds : List (Int × Int)) (s : WState)
    (ho : ∀ e ∈ s.opn, s.closed.cell e.x e.y = true)
    (hm : ∀ e ∈ s.meander, s.closed.cell e.x e.y = true) :
    (∀ e ∈ (ds.foldl (processNeighbor alter c) s).opn,
      (ds.foldl (processNeighbor alter c) s).closed.cell e.x e.y = true) ∧
    (∀ e ∈ (ds.foldl (processNeighbor alter c) s).meander,
      (ds.foldl (processNeighbor alter c) s).closed.cell e.x e.y = true) := by
  apply foldl_inv (fun t : WState =>
    (∀ e ∈ t.opn, t.closed.cell e.x e.y = true) ∧
    (∀ e ∈ t.meander, t.closed.cell e.x e.y = true))
  · intro t d _ ht
    exact pn_invQ alter c t d ht.1 ht.2
  · exact ⟨ho, hm⟩

theorem fold_invLab (alter : Bool) (c : Cellz) (ds : List (Int × Int)) (s : WState)
    (hL : ∀ p q : Int, s.labels.cell p q ≠ s.labels.no_data →
      s.closed.cell p q = true) :
    ∀ p q : Int, (ds.foldl (processNeighbor alter c) s).labels.cell p q ≠
        (ds.foldl (processNeighbor alter c) s).labels.no_data →
      (ds.foldl (processNeighbor alter c) s).closed.cell p q = true := by
  apply foldl_inv (fun t : WState => ∀ p q : Int,
    t.labels.cell p q ≠ t.labels.no_data → t.closed.cell p q = true)
  · intro t d _ ht
    exact pn_invLab alter c t d ht
  · exact hL

theorem fold_measure (alter : Bool) (c : Cellz) (ds : List (Int × Int)) (s : WState) :
    measureW (ds.foldl (processNeighbor alter c) s) ≤ measureW s := by
  apply foldl_inv (fun t : WState => measureW t ≤ measureW s)
  · intro t d _ ht
    exact le_trans (pn_measure alter c t d) ht
  · exact le_refl _

theorem fold_label_change (alter : Bool) (c : Cellz) (ds : List (Int × Int)) :
    ∀ s : WState, (∀ d ∈ ds, d.1 ≠ 0 ∨ d.2 ≠ 0) → ∀ p q : Int,
      (ds.foldl (processNeighbor alter c) s).labels.cell p q ≠ s.labels.cell p q →
      s.closed.cell p q = false ∧
      (∃ d ∈ ds, p = c.x + d.1 ∧ q = c.y + d.2) ∧
      (ds.foldl (processNeighbor alter c) s).labels.cell p q =
        s.labels.cell c.x c.y ∧
      (ds.foldl (processNeighbor alter c) s).closed.cell p q = true := by
  induction ds with
  | nil =>
    intro s _ p q hne
    exact absurd rfl hne
  | cons d t ih =>
    intro s hds p q hne
    rw [List.foldl_cons] at hne ⊢
    by_cases h1 : (processNeighbor alter c s d).labels.cell p q = s.labels.cell p q
    · have hne' : (t.foldl (processNeighbor alter c)
          (processNeighbor alter c s d)).labels.cell p q ≠
          (processNeighbor alter c s d).labels.cell p q := by
        rw [h1]
        exact hne
      obtain ⟨hcl, ⟨d', hd', hpd⟩, hval, hclosed⟩ :=
        ih (processNeighbor alter c s d)
          (fun d0 hd0 => hds d0 (List.mem_cons_of_mem d hd0)) p q hne'
      refine ⟨?_, ⟨d', List.mem_cons_of_mem d hd', hpd⟩, ?_, hclosed⟩
      · by_cases hc : s.closed.cell p q = true
        · rw [pn_closed_mono alter c s d p q hc] at hcl
          cases hcl
        · exact bool_eq_false hc
      · rw [hval, pn_labels_at_c alter c s d (hds d (List.mem_cons_self d t))]
    · obtain ⟨hp, hq, -, hcl, hval, hclosed⟩ := pn_label_change alter c s d p q h1
      obtain ⟨hcl2, hlab2⟩ := fold_labels_of_closed alter c t
        (processNeighbor alter c s d) p q hclosed
      refine ⟨hcl, ⟨d, List.mem_cons_self d t, hp, hq⟩, ?_, hcl2⟩
      rw [hlab2, hval]

/-! ## Step-level and seeding lemmas -/

theorem neighborOffsets_ne : ∀ d ∈ neighborOffsets, d.1 ≠ 0 ∨ d.2 ≠ 0 := by
  intro d hd
  simp only [neighborOffsets, List.mem_cons, List.not_mem_nil, or_false] at hd
  rcases hd with rfl | rfl | rfl | rfl | rfl | rfl | rfl | rfl <;> decide

theorem freshLabel_fields (s1 : WState) (c : Cellz) :
    (freshLabel s1 c).opn = s1.opn ∧ (freshLabel s1 c).meander = s1.meander ∧
    (freshLabel s1 c).elev = s1.elev ∧ (freshLabel s1 c).closed = s1.closed ∧
    (freshLabel s1 c).labels.no_data = s1.labels.no_data := by
  unfold freshLabel
  split_ifs <;> exact ⟨rfl, rfl, rfl, rfl, rfl⟩

theorem freshLabel_cases (s1 : WState) (c : Cellz) :
    (freshLabel s1 c = s1 ∧
      ¬(s1.labels.cell c.x c.y = s1.labels.no_data ∧
        s1.elev.cell c.x c.y ≠ s1.elev.no_data)) ∨
    (s1.labels.cell c.x c.y = s1.labels.no_data ∧
      s1.elev.cell c.x c.y ≠ s1.elev.no_data ∧
      freshLabel s1 c =
        { s1 with
            labels := s1.labels.set c.x c.y s1.clabel,
            clabel := s1.clabel + 1 }) := by
  unfold freshLabel
  split_ifs with hf
  · exact Or.inr ⟨hf.1, hf.2, rfl⟩
  · exact Or.inl ⟨rfl, hf⟩

theorem freshLabel_label_change (s1 : WState) (c : Cellz) (p q : Int)
    (hne : (freshLabel s1 c).labels.cell p q ≠ s1.labels.cell p q) :
    p = c.x ∧ q = c.y ∧ s1.labels.cell p q = s1.labels.no_data ∧
    s1.elev.cell p q ≠ s1.elev.no_data ∧
    (freshLabel s1 c).labels.cell p q = s1.clabel ∧
    (freshLabel s1 c).clabel = s1.clabel + 1 := by
  rcases freshLabel_cases s1 c with ⟨heq, -⟩ | ⟨h1, h2, heq⟩
  · rw [heq] at hne
    exact absurd rfl hne
  · rw [heq] at hne ⊢
    replace hne : (s1.labels.set c.x c.y s1.clabel).cell p q ≠
      s1.labels.cell p q := hne
    rw [Grid.cell_set] at hne
    by_cases hpq : p = c.x ∧ q = c.y
    · obtain ⟨rfl, rfl⟩ := hpq
      refine ⟨rfl, rfl, h1, h2, ?_, rfl⟩
      show (s1.labels.set c.x c.y s1.clabel).cell c.x c.y = s1.clabel
      rw [Grid.cell_set, if_pos ⟨rfl, rfl⟩]
    · exact absurd (if_neg hpq) hne

theorem stepW_some_elim {alter : Bool} {s s' : WState}
    (h : stepW alter s = some s') :
    ∃ c s1, popCell s = some (c, s1) ∧
      s' = neighborOffsets.foldl (processNeighbor alter c) (freshLabel s1 c) := by
  unfold stepW at h
  cases hp : popCell s with
  | none =>
    rw [hp] at h
    cases h
  | some pr =>
    rcases pr with ⟨c, s1⟩
    rw [hp] at h
    cases h
    exact ⟨c, s1, rfl, rfl⟩

theorem stepW_eq_none {alter : Bool} {s : WState} :
    stepW alter s = none ↔ s.opn = [] ∧ s.meander = [] := by
  unfold stepW
  cases hp : popCell s with
  | none =>
    constructor
    · intro _
      exact popCell_eq_none.mp hp
    · intro _
      rfl
  | some pr =>
    rcases pr with ⟨c, s1⟩
    constructor
    · intro h
      cases h
    · intro hq
      rw [popCell_eq_none.mpr hq] at hp
      cases hp

theorem stepW_measure {alter : Bool} {s s' : WState}
    (h : stepW alter s = some s') : measureW s' < measureW s := by
  obtain ⟨c, s1, hpop, rfl⟩ := stepW_some_elim h
  have h1 := fold_measure alter c neighborOffsets (freshLabel s1 c)
  have h2 : measureW (freshLabel s1 c) = measureW s1 := by
    obtain ⟨ho, hm, he, hc, -⟩ := freshLabel_fields s1 c
    unfold measureW
    rw [ho, hm, he, hc]
  have h3 : measureW s1 < measureW s := by
    obtain ⟨he, -, hc, -, -, -, -, hlen⟩ := popCell_spec hpop
    unfold measureW
    rw [he, hc]
    omega
  omega

theorem runSteps_terminal (alter : Bool) :
    ∀ (n : Nat) (s : WState), measureW s ≤ n →
      (runSteps alter n s).opn = [] ∧ (runSteps alter n s).meander = [] := by
  intro n
  induction n with
  | zero =>
    intro s hs
    have h1 : s.opn.length = 0 := by
      unfold measureW at hs
      omega
    have h2 : s.meander.length = 0 := by
      unfold measureW at hs
      omega
    exact ⟨List.length_eq_zero.mp h1, List.length_eq_zero.mp h2⟩
  | succ n ih =>
    intro s hs
    unfold runSteps
    cases hst : stepW alter s with
    | none =>
      simp only []
      exact stepW_eq_none.mp hst
    | some s' =>
      simp only []
      have := stepW_measure hst
      exact ih s' (by omega)

theorem foldl_opn_append {β : Type} (f : WState → β → WState) (ent : β → List Cellz)
    (hf : ∀ s x, (f s x).opn = s.opn ++ ent x) :
    ∀ (l : List β) (s : WState),
      (List.foldl f s l).opn = s.opn ++ l.flatMap ent := by
  intro l
  induction l with
  | nil =>
    intro s
    simp
  | cons a t ih =>
    intro s
    rw [List.foldl_cons, ih, hf]
    simp [List.flatMap_cons]

theorem seed_opn_eq (g : Grid ℚ) :
    (seedState g).opn = seedListTB g ++ seedListLR g := by
  unfold seedState seedListTB seedListLR
  rw [foldl_opn_append (seedStepLR g) (entLR g) (fun s x => rfl)]
  rw [foldl_opn_append (seedStepTB g) (entTB g) (fun s x => rfl)]
  simp [seedInit]

theorem seed_elev (g : Grid ℚ) : (seedState g).elev = g := by
  unfold seedState
  apply foldl_inv (fun t : WState => t.elev = g)
  · intro t i _ ht
    exact ht
  · apply foldl_inv (fun t : WState => t.elev = g)
    · intro t x _ ht
      exact ht
    · rfl

theorem seed_labels (g : Grid ℚ) :
    (seedState g).labels = (seedInit g).labels := by
  unfold seedState
  apply foldl_inv (fun t : WState => t.labels = (seedInit g).labels)
  · intro t i _ ht
    exact ht
  · apply foldl_inv (fun t : WState => t.labels = (seedInit g).labels)
    · intro t x _ ht
      exact ht
    · rfl

theorem seed_meander (g : Grid ℚ) : (seedState g).meander = [] := by
  unfold seedState
  apply foldl_inv (fun t : WState => t.meander = [])
  · intro t i _ ht
    exact ht
  · apply foldl_inv (fun t : WState => t.meander = [])
    · intro t x _ ht
      exact ht
    · rfl

theorem seed_clabel (g : Grid ℚ) : (seedState g).clabel = 1 := by
  unfold seedState
  apply foldl_inv (fun t : WState => t.clabel = 1)
  · intro t i _ ht
    exact ht
  · apply foldl_inv (fun t : WState => t.clabel = 1)
    · intro t x _ ht
      exact ht
    · rfl

theorem seed_invQ (g : Grid ℚ) :
    ∀ e ∈ (seedState g).opn, (seedState g).closed.cell e.x e.y = true := by
  unfold seedState
  apply foldl_inv (fun t : WState =>
    ∀ e ∈ t.opn, t.closed.cell e.x e.y = true)
  · intro t i _ ht e he
    replace he : e ∈ t.opn ++ entLR g i := he
    rcases List.mem_append.mp he with h | h
    · exact closed_set_cell _ _ _ _ _ (Or.inr
        (closed_set_cell _ _ _ _ _ (Or.inr (ht e h))))
    · unfold entLR at h
      rcases List.mem_cons.mp h with rfl | h
      · exact closed_set_cell _ _ _ _ _ (Or.inr
          (closed_set_cell _ _ _ _ _ (Or.inl ⟨rfl, rfl⟩)))
      · rcases List.mem_singleton.mp h with rfl
        exact closed_set_cell _ _ _ _ _ (Or.inl ⟨rfl, rfl⟩)
  · apply foldl_inv (fun t : WState =>
      ∀ e ∈ t.opn, t.closed.cell e.x e.y = true)
    · intro t x _ ht e he
      replace he : e ∈ t.opn ++ entTB g x := he
      rcases List.mem_append.mp he with h | h
      · exact closed_set_cell _ _ _ _ _ (Or.inr
          (closed_set_cell _ _ _ _ _ (Or.inr (ht e h))))
      · unfold entTB at h
        rcases List.mem_cons.mp h with rfl | h
        · exact closed_set_cell _ _ _ _ _ (Or.inr
            (closed_set_cell _ _ _ _ _ (Or.inl ⟨rfl, rfl⟩)))
        · rcases List.mem_singleton.mp h with rfl
          exact closed_set_cell _ _ _ _ _ (Or.inl ⟨rfl, rfl⟩)
    · intro e he
      cases he

theorem seed_keyed (g : Grid ℚ) :
    ∀ e ∈ (seedState g).opn, e.z = g.cell e.x e.y := by
  unfold seedState
  apply foldl_inv (fun t : WState => ∀ e ∈ t.opn, e.z = g.cell e.x e.y)
  · intro t i _ ht e he
    replace he : e ∈ t.opn ++ entLR g i := he
    rcases List.mem_append.mp he with h | h
    · exact ht e h
    · unfold entLR at h
      rcases List.mem_cons.mp h with rfl | h
      · rfl
      · rcases List.mem_singleton.mp h with rfl
        rfl
  · apply foldl_inv (fun t : WState => ∀ e ∈ t.opn, e.z = g.cell e.x e.y)
    · intro t x _ ht e he
      replace he : e ∈ t.opn ++ entTB g x := he
      rcases List.mem_append.mp he with h | h
      · exact ht e h
      · unfold entTB at h
        rcases List.mem_cons.mp h with rfl | h
        · rfl
        · rcases List.mem_singleton.mp h with rfl
          rfl
    · intro e he
      cases he

theorem flatMap_pair_length (f : Nat → List Cellz) (hf : ∀ i, (f i).length = 2) :
    ∀ n : Nat, ((List.range n).flatMap f).length = 2 * n := by
  intro n
  induction n with
  | zero => rfl
  | succ m ih =>
    rw [List.range_succ, List.flatMap_append, List.length_append, ih]
    simp [hf m]
    omega

theorem seed_opn_length (g : Grid ℚ) :
    (seedState g).opn.length = 2 * g.width + 2 * (g.height - 2) := by
  rw [seed_opn_eq, List.length_append]
  unfold seedListTB seedListLR
  rw [flatMap_pair_length (entTB g) (fun i => rfl),
    flatMap_pair_length (entLR g) (fun i => rfl)]

theorem seedTB_closed (g : Grid ℚ) :
    ∀ (n : Nat) (s : WState) (k : Nat), k < n →
      ((List.range n).foldl (seedStepTB g) s).closed.cell (k : Int) 0 = true ∧
      ((List.range n).foldl (seedStepTB g) s).closed.cell (k : Int)
        ((g.height : Int) - 1) = true := by
  intro n
  induction n with
  | zero =>
    intro s k hk
    exact absurd hk (Nat.not_lt_zero k)
  | succ m ih =>
    intro s k hk
    rw [List.range_succ, List.foldl_append]
    simp only [List.foldl_cons, List.foldl_nil]
    rcases Nat.lt_succ_iff_lt_or_eq.mp hk with hlt | rfl
    · have hm := ih s k hlt
      exact ⟨closed_set_cell _ _ _ _ _ (Or.inr
          (closed_set_cell _ _ _ _ _ (Or.inr hm.1))),
        closed_set_cell _ _ _ _ _ (Or.inr
          (closed_set_cell _ _ _ _ _ (Or.inr hm.2)))⟩
    · exact ⟨closed_set_cell _ _ _ _ _ (Or.inr
          (closed_set_cell _ _ _ _ _ (Or.inl ⟨rfl, rfl⟩))),
        closed_set_cell _ _ _ _ _ (Or.inl ⟨rfl, rfl⟩)⟩

theorem seedLR_closed (g : Grid ℚ) :
    ∀ (n : Nat) (s : WState) (i : Nat), i < n →
      ((List.range n).foldl (seedStepLR g) s).closed.cell 0
        ((i : Int) + 1) = true ∧
      ((List.range n).foldl (seedStepLR g) s).closed.cell
        ((g.width : Int) - 1) ((i : Int) + 1) = true := by
  intro n
  induction n with
  | zero =>
    intro s i hi
    exact absurd hi (Nat.not_lt_zero i)
  | succ m ih =>
    intro s i hi
    rw [List.range_succ, List.foldl_append]
    simp only [List.foldl_cons, List.foldl_nil]
    rcases Nat.lt_succ_iff_lt_or_eq.mp hi with hlt | rfl
    · have hm := ih s i hlt
      exact ⟨closed_set_cell _ _ _ _ _ (Or.inr
          (closed_set_cell _ _ _ _ _ (Or.inr hm.1))),
        closed_set_cell _ _ _ _ _ (Or.inr
          (closed_set_cell _ _ _ _ _ (Or.inr hm.2)))⟩
    · exact ⟨closed_set_cell _ _ _ _ _ (Or.inr
          (closed_set_cell _ _ _ _ _ (Or.inl ⟨rfl, rfl⟩))),
        closed_set_cell _ _ _ _ _ (Or.inl ⟨rfl, rfl⟩)⟩

theorem seedLR_closed_mono (g : Grid ℚ) (l : List Nat) (s : WState) (p q : Int)
    (h : s.closed.cell p q = true) :
    (l.foldl (seedStepLR g) s).closed.cell p q = true := by
  apply foldl_inv (fun t : WState => t.closed.cell p q = true)
  · intro t i _ ht
    exact closed_set_cell _ _ _ _ _ (Or.inr (closed_set_cell _ _ _ _ _ (Or.inr ht)))
  · exact h

theorem seed_closed_boundary (g : Grid ℚ) (_hw : 2 ≤ g.width) (hh : 2 ≤ g.height)
    (x y : Int) (hb : onBoundary g x y) :
    (seedState g).closed.cell x y = true := by
  obtain ⟨hin, hcs⟩ := hb
  unfold Grid.in_grid at hin
  simp only [Bool.and_eq_true, decide_eq_true_eq] at hin
  obtain ⟨⟨⟨h1, h2⟩, h3⟩, h4⟩ := hin
  unfold seedState
  by_cases hy : y = 0 ∨ y = (g.height : Int) - 1
  · have hxe : (x.toNat : Int) = x := Int.toNat_of_nonneg h1
    have hc := seedTB_closed g g.width (seedInit g) x.toNat (by omega)
    rcases hy with rfl | rfl
    · rw [← hxe]
      exact seedLR_closed_mono g _ _ _ _ hc.1
    · rw [← hxe]
      exact seedLR_closed_mono g _ _ _ _ hc.2
  · push_neg at hy
    have hx : x = 0 ∨ x = (g.width : Int) - 1 := by
      rcases hcs with h | h | h | h
      · exact Or.inl h
      · exact Or.inr h
      · exact absurd h hy.1
      · exact absurd h hy.2
    have hy1 : ((y - 1).toNat : Int) = y - 1 :=
      Int.toNat_of_nonneg (by omega)
    have hye : ((y - 1).toNat : Int) + 1 = y := by omega
    have hc := seedLR_closed g (g.height - 2)
      ((List.range g.width).foldl (seedStepTB g) (seedInit g))
      (y - 1).toNat (by omega)
    rcases hx with rfl | rfl
    · rw [← hye]
      exact hc.1
    · rw [← hye]
      exact hc.2

theorem intOfNat_cast (n : Nat) : Int.ofNat n = (n : Int) := rfl

theorem countCell_pair (x y a1 b1 a2 b2 : Int) (z1 z2 : ℚ) :
    countCell x y [⟨a1, b1, z1⟩, ⟨a2, b2, z2⟩] =
      (if a1 = x ∧ b1 = y then 1 else 0) +
      (if a2 = x ∧ b2 = y then 1 else 0) := by
  unfold countCell
  simp only [List.countP_cons, List.countP_nil, Bool.and_eq_true,
    decide_eq_true_eq]
  split_ifs <;> simp_all

theorem countCell_append (x y : Int) (l1 l2 : List Cellz) :
    countCell x y (l1 ++ l2) = countCell x y l1 + countCell x y l2 := by
  unfold countCell
  exact List.countP_append _ _ _

theorem countTB_formula (g : Grid ℚ) (x y : Int) :
    countCell x y (seedListTB g) =
      ((List.range g.width).map fun a =>
        (if Int.ofNat a = x ∧ 0 = y then 1 else 0) +
        (if Int.ofNat a = x ∧ (g.height : Int) - 1 = y then 1 else 0)).sum := by
  unfold seedListTB countCell
  rw [countP_flatMap]
  congr 1
  apply List.map_congr_left
  intro a _
  have h := countCell_pair x y (Int.ofNat a) 0 (Int.ofNat a) ((g.height : Int) - 1)
    (g.cell (Int.ofNat a) 0) (g.cell (Int.ofNat a) ((g.height : Int) - 1))
  unfold countCell at h
  rw [show entTB g a = [⟨Int.ofNat a, 0, g.cell (Int.ofNat a) 0⟩,
    ⟨Int.ofNat a, (g.height : Int) - 1,
      g.cell (Int.ofNat a) ((g.height : Int) - 1)⟩] from rfl]
  rw [h]

theorem countLR_formula (g : Grid ℚ) (x y : Int) :
    countCell x y (seedListLR g) =
      ((List.range (g.height - 2)).map fun a =>
        (if (0 : Int) = x ∧ Int.ofNat a + 1 = y then 1 else 0) +
        (if (g.width : Int) - 1 = x ∧ Int.ofNat a + 1 = y then 1 else 0)).sum := by
  unfold seedListLR countCell
  rw [countP_flatMap]
  congr 1
  apply List.map_congr_left
  intro a _
  have h := countCell_pair x y 0 (Int.ofNat a + 1) ((g.width : Int) - 1)
    (Int.ofNat a + 1) (g.cell 0 (Int.ofNat a + 1))
    (g.cell ((g.width : Int) - 1) (Int.ofNat a + 1))
  unfold countCell at h
  rw [show entLR g a = [⟨0, Int.ofNat a + 1, g.cell 0 (Int.ofNat a + 1)⟩,
    ⟨(g.width : Int) - 1, Int.ofNat a + 1,
      g.cell ((g.width : Int) - 1) (Int.ofNat a + 1)⟩] from rfl]
  rw [h]

theorem seed_count_boundary (g : Grid ℚ) (hw : 2 ≤ g.width) (hh : 2 ≤ g.height)
    (x y : Int) (hb : onBoundary g x y) :
    countCell x y (seedState g).opn = 1 := by
  obtain ⟨hin, hcs⟩ := hb
  unfold Grid.in_grid at hin
  simp only [Bool.and_eq_true, decide_eq_true_eq] at hin
  obtain ⟨⟨⟨h1, h2⟩, h3⟩, h4⟩ := hin
  rw [seed_opn_eq, countCell_append, countTB_formula, countLR_formula]
  by_cases hy : y = 0 ∨ y = (g.height : Int) - 1
  · have hLR : ((List.range (g.height - 2)).map fun a =>
        (if (0 : Int) = x ∧ Int.ofNat a + 1 = y then 1 else 0) +
        (if (g.width : Int) - 1 = x ∧ Int.ofNat a + 1 = y then 1 else 0)).sum = 0 := by
      apply sum_map_range_zero
      intro i hi
      rw [if_neg, if_neg]
      · rintro ⟨-, hv⟩
        simp only [intOfNat_cast] at hv
        rcases hy with rfl | rfl <;> omega
      · rintro ⟨-, hv⟩
        simp only [intOfNat_cast] at hv
        rcases hy with rfl | rfl <;> omega
    have hTB : ((List.range g.width).map fun a =>
        (if Int.ofNat a = x ∧ 0 = y then 1 else 0) +
        (if Int.ofNat a = x ∧ (g.height : Int) - 1 = y then 1 else 0)).sum = 1 := by
      rw [sum_map_range_indicator g.width x.toNat (by omega) _ ?side]
      case side =>
        intro i hi hne
        rw [if_neg, if_neg]
        · rintro ⟨hv, -⟩
          simp only [intOfNat_cast] at hv
          omega
        · rintro ⟨hv, -⟩
          simp only [intOfNat_cast] at hv
          omega
      rcases hy with rfl | rfl
      · rw [if_pos ⟨by simp only [intOfNat_cast]; omega, rfl⟩, if_neg]
        rintro ⟨-, hv⟩
        omega
      · rw [if_neg, if_pos ⟨by simp only [intOfNat_cast]; omega, rfl⟩]
        rintro ⟨-, hv⟩
        omega
    rw [hTB, hLR]
  · push_neg at hy
    have hx : x = 0 ∨ x = (g.width : Int) - 1 := by
      rcases hcs with h | h | h | h
      · exact Or.inl h
      · exact Or.inr h
      · exact absurd h hy.1
      · exact absurd h hy.2
    have hyb : 1 ≤ y ∧ y ≤ (g.height : Int) - 2 := by
      constructor <;> omega
    have hTB : ((List.range g.width).map fun a =>
        (if Int.ofNat a = x ∧ 0 = y then 1 else 0) +
        (if Int.ofNat a = x ∧ (g.height : Int) - 1 = y then 1 else 0)).sum = 0 := by
      apply sum_map_range_zero
      intro i hi
      rw [if_neg, if_neg]
      · rintro ⟨-, hv⟩
        omega
      · rintro ⟨-, hv⟩
        omega
    have hLR : ((List.range (g.height - 2)).map fun a =>
        (if (0 : Int) = x ∧ Int.ofNat a + 1 = y then 1 else 0) +
        (if (g.width : Int) - 1 = x ∧ Int.ofNat a + 1 = y then 1 else 0)).sum = 1 := by
      rw [sum_map_range_indicator (g.height - 2) (y - 1).toNat (by omega) _ ?side2]
      case side2 =>
        intro i hi hne
        rw [if_neg, if_neg]
        · rintro ⟨-, hv⟩
          simp only [intOfNat_cast] at hv
          omega
        · rintro ⟨-, hv⟩
          simp only [intOfNat_cast] at hv
          omega
      rcases hx with rfl | rfl
      · rw [if_pos ⟨rfl, by simp only [intOfNat_cast]; omega⟩, if_neg]
        rintro ⟨hv, -⟩
        omega
      · rw [if_neg, if_pos ⟨rfl, by simp only [intOfNat_cast]; omega⟩]
        rintro ⟨hv, -⟩
        omega
    rw [hTB, hLR]

theorem invW_seed (g : Grid ℚ) : InvW (seedState g) := by
  refine ⟨?_, seed_invQ g, ?_, ?_, ?_⟩
  · intro p q hne
    rw [seed_labels g] at hne
    exact absurd rfl hne
  · intro e he
    rw [seed_meander g] at he
    cases he
  · rw [seed_labels g]
    rfl
  · rw [seed_clabel g]

theorem invW_fresh (s1 : WState) (c : Cellz) (hclo : s1.closed.cell c.x c.y = true)
    (hI : InvW s1) : InvW (freshLabel s1 c) := by
  obtain ⟨hL, ho, hm, hnd, hcl⟩ := hI
  obtain ⟨fo, fm, fe, fc, fn⟩ := freshLabel_fields s1 c
  refine ⟨?_, ?_, ?_, ?_, ?_⟩
  · intro p q hne
    rw [fn] at hne
    rw [fc]
    by_cases hch : (freshLabel s1 c).labels.cell p q = s1.labels.cell p q
    · rw [hch] at hne
      exact hL p q hne
    · obtain ⟨rfl, rfl, -, -, -, -⟩ := freshLabel_label_change s1 c p q hch
      exact hclo
  · intro e he
    rw [fo] at he
    rw [fc]
    exact ho e he
  · intro e he
    rw [fm] at he
    rw [fc]
    exact hm e he
  · rw [fn, hnd]
  · rcases freshLabel_cases s1 c with ⟨heq, -⟩ | ⟨-, -, heq⟩
    · rw [heq]
      exact hcl
    · rw [heq]
      show 1 ≤ s1.clabel + 1
      omega

theorem popped_closed {s : WState} {c : Cellz} {s1 : WState}
    (hpop : popCell s = some (c, s1)) (hI : InvW s) :
    s1.closed.cell c.x c.y = true := by
  obtain ⟨-, ho, hm, -, -⟩ := hI
  obtain ⟨-, -, hc, -, hmem, -, -, -⟩ := popCell_spec hpop
  rw [hc]
  rcases hmem with h | h
  · exact ho c h
  · exact hm c h

theorem invW_pop {s : WState} {c : Cellz} {s1 : WState}
    (hpop : popCell s = some (c, s1)) (hI : InvW s) : InvW s1 := by
  obtain ⟨hL, ho, hm, hnd, hcl⟩ := hI
  obtain ⟨-, hlab, hc, hclab, -, hos, hms, -⟩ := popCell_spec hpop
  refine ⟨?_, ?_, ?_, ?_, ?_⟩
  · intro p q hne
    rw [hlab] at hne
    rw [hc]
    exact hL p q hne
  · intro e he
    rw [hc]
    exact ho e (hos e he)
  · intro e he
    rw [hc]
    exact hm e (hms e he)
  · rw [hlab]
    exact hnd
  · rw [hclab]
    exact hcl

theorem invW_step (alter : Bool) (s s' : WState) (hI : InvW s)
    (hstep : stepW alter s = some s') : InvW s' := by
  obtain ⟨c, s1, hpop, rfl⟩ := stepW_some_elim hstep
  have hI1 : InvW s1 := invW_pop hpop hI
  have hI2 : InvW (freshLabel s1 c) :=
    invW_fresh s1 c (popped_closed hpop hI) hI1
  obtain ⟨hL, ho, hm, hnd, hcl⟩ := hI2
  obtain ⟨hq1, hq2⟩ := fold_invQ alter c neighborOffsets (freshLabel s1 c) ho hm
  refine ⟨?_, hq1, hq2, ?_, ?_⟩
  · exact fold_invLab alter c neighborOffsets (freshLabel s1 c) hL
  · rw [(fold_basic alter c neighborOffsets (freshLabel s1 c)).2.2.2.1, hnd]
  · rw [(fold_basic alter c neighborOffsets (freshLabel s1 c)).2.2.2.2]
    exact hcl

theorem run_elev_mono (alter : Bool) :
    ∀ (n : Nat) (s : WState) (x y : Int),
      s.elev.cell x y ≤ (runSteps alter n s).elev.cell x y := by
  intro n
  induction n with
  | zero =>
    intro s x y
    exact le_refl _
  | succ n ih =>
    intro s x y
    unfold runSteps
    cases hst : stepW alter s with
    | none => exact le_refl _
    | some s' =>
      obtain ⟨c, s1, hpop, rfl⟩ := stepW_some_elim hst
      obtain ⟨he, -, -, -, -, -, -, -⟩ := popCell_spec hpop
      have h1 : s.elev.cell x y ≤ (freshLabel s1 c).elev.cell x y := by
        rw [(freshLabel_fields s1 c).2.2.1, he]
      exact le_trans (le_trans h1
        (fold_elev_mono alter c neighborOffsets (freshLabel s1 c) x y)) (ih _ x y)

theorem run_elev_noalter :
    ∀ (n : Nat) (s : WState) (x y : Int),
      (runSteps false n s).elev.cell x y = s.elev.cell x y := by
  intro n
  induction n with
  | zero =>
    intro s x y
    rfl
  | succ n ih =>
    intro s x y
    unfold runSteps
    cases hst : stepW false s with
    | none => rfl
    | some s' =>
      obtain ⟨c, s1, hpop, rfl⟩ := stepW_some_elim hst
      obtain ⟨he, -, -, -, -, -, -, -⟩ := popCell_spec hpop
      rw [ih]
      rw [fold_elev_noalter c neighborOffsets (freshLabel s1 c)]
      rw [(freshLabel_fields s1 c).2.2.1, he]

/-! ## Claims C1-C4, C9, C10: the watershed flood fill -/

/-- C1 counterexample: on the concrete 3×3 grid with a no-data center, the
center inherits a positive watershed label from the boundary cell that
discovers it, and with alter_elevations = true its elevation is overwritten
by the flood (d8_methods.cpp:395 and 398-400 do not test the neighbor for
no-data). -/
theorem fw_nodata_label_cex :
    g3c.cell 1 1 = g3c.no_data ∧
    (find_watersheds g3c true).labels.cell 1 1 ≠
      (find_watersheds g3c true).labels.no_data ∧
    (find_watersheds g3c true).labels.cell 1 1 = 1 ∧
    (find_watersheds g3c true).elev.cell 1 1 ≠ g3c.cell 1 1 := by
  refine ⟨by decide, by decide, by decide, by decide⟩

/-- C1 (amended): a no-data cell never receives a fresh label when it is
popped — the fresh-label step requires valid-data elevation, and the
neighbor loop never writes the popped cell's own label — so a popped
no-data cell's label is unchanged by its processing step. (The original
claim fails: a no-data cell discovered as a neighbor inherits the
discoverer's label and, when alter_elevations is true, its elevation is
overwritten like any other neighbor; see the counterexample.) -/
theorem fw_nodata_popped_label (alter : Bool) (s : WState) (c : Cellz)
    (s1 s' : WState) (hpop : popCell s = some (c, s1))
    (hnd : s.elev.cell c.x c.y = s.elev.no_data)
    (hstep : stepW alter s = some s') :
    s'.labels.cell c.x c.y = s.labels.cell c.x c.y := by
  obtain ⟨c', s1', hpop', heq⟩ := stepW_some_elim hstep
  rw [hpop] at hpop'
  injection hpop' with h1
  injection h1 with hc2 hs2
  subst hc2
  subst hs2
  subst heq
  obtain ⟨hels, hlabs, -, -, -, -, -, -⟩ := popCell_spec hpop
  have hfl : freshLabel s1 c = s1 := by
    unfold freshLabel
    rw [if_neg]
    rintro ⟨-, hne⟩
    rw [hels] at hne
    exact hne hnd
  rw [fold_labels_at_c alter c neighborOffsets neighborOffsets_ne
    (freshLabel s1 c), hfl, hlabs]

/-- Witness for the amended C1 at the concrete 1×1 all-no-data grid: the
popped no-data cell keeps its sentinel label through the step. -/
theorem fw_nodata_popped_label_witness :
    ({ seedState gW1 with opn := [⟨0, 0, -9999⟩] } : WState).labels.cell 0 0 =
      (seedState gW1).labels.cell 0 0 :=
  fw_nodata_popped_label true (seedState gW1) ⟨0, 0, -9999⟩
    { seedState gW1 with opn := [⟨0, 0, -9999⟩] }
    { seedState gW1 with opn := [⟨0, 0, -9999⟩] }
    rfl rfl rfl

/-- C2: with alter_elevations = true every output elevation is at least the
input elevation, and every frontier entry pushed while processing a popped
cell carries an elevation at least the popped cell's flood elevation (the
meander stack receives exactly the flood elevation, the open queue the
neighbor's strictly greater own elevation), so flood elevations are
monotone non-decreasing along any discovery path. -/
theorem fw_fill_monotone :
    (∀ (g : Grid ℚ) (x y : Int),
      g.cell x y ≤ (find_watersheds g true).elev.cell x y) ∧
    (∀ (alter : Bool) (s : WState) (c : Cellz) (s1 s' : WState),
      popCell s = some (c, s1) → stepW alter s = some s' →
      (∀ e ∈ s'.opn, e ∈ s1.opn ∨ c.z ≤ e.z) ∧
      (∀ e ∈ s'.meander, e ∈ s1.meander ∨ c.z ≤ e.z)) := by
  constructor
  · intro g x y
    have h := run_elev_mono true (measureW (seedState g)) (seedState g) x y
    rw [seed_elev g] at h
    exact h
  · intro alter s c s1 s' hpop hstep
    obtain ⟨c', s1', hpop', heq⟩ := stepW_some_elim hstep
    rw [hpop] at hpop'
    injection hpop' with h1
    injection h1 with hc2 hs2
    subst hc2
    subst hs2
    subst heq
    constructor
    · intro e he
      rcases fold_mem_opn alter c neighborOffsets (freshLabel s1 c) e he with h | h
      · rw [(freshLabel_fields s1 c).1] at h
        exact Or.inl h
      · exact Or.inr h
    · intro e he
      rcases fold_mem_meander alter c neighborOffsets (freshLabel s1 c) e he
        with h | h
      · rw [(freshLabel_fields s1 c).2.1] at h
        exact Or.inl h
      · exact Or.inr h

/-- Witness for C2 at concrete inputs: the filled elevation of the 2×1
grid dominates the input, and a concretely popped cell's surviving open
entry satisfies the push disjunction. -/
theorem fw_fill_monotone_witness :
    gW2.cell 0 0 ≤ (find_watersheds gW2 true).elev.cell 0 0 ∧
    ((⟨0, 0, -9999⟩ : Cellz) ∈
        ({ seedState gW1 with opn := [⟨0, 0, -9999⟩] } : WState).opn ∨
      (-9999 : ℚ) ≤ (-9999 : ℚ)) :=
  ⟨fw_fill_monotone.1 gW2 0 0,
   (fw_fill_monotone.2 true (seedState gW1) ⟨0, 0, -9999⟩
      { seedState gW1 with opn := [⟨0, 0, -9999⟩] }
      { seedState gW1 with opn := [⟨0, 0, -9999⟩] }
      rfl rfl).1 ⟨0, 0, -9999⟩ (by decide)⟩

/-- C9: with alter_elevations = false the elevation grid is left unchanged:
after the call every cell equals its input value (the only elevation write
in the loop is guarded by alter_elevations, d8_methods.cpp:399-400). -/
theorem fw_noalter_preserves_elevations (g : Grid ℚ) (x y : Int) :
    (find_watersheds g false).elev.cell x y = g.cell x y := by
  unfold find_watersheds
  rw [run_elev_noalter, seed_elev g]

theorem length_allCells {α : Type} (g : Grid α) :
    (allCells g).length = g.width * g.height := by
  have h : ∀ n : Nat, ((List.range n).flatMap fun x =>
      (List.range g.height).map fun y => (Int.ofNat x, Int.ofNat y)).length =
      n * g.height := by
    intro n
    induction n with
    | zero => simp
    | succ m ih =>
      rw [List.range_succ, List.flatMap_append, List.length_append, ih]
      simp [List.length_map, List.length_range]
      ring
  exact h g.width

/-- C10: the main loop of find_watersheds terminates: running it with fuel
equal to the measure of the seeded state (unclosed cells plus frontier
sizes) empties both frontier structures, and that measure is bounded by a
function of width and height. Each iteration pops one entry and every push
closes a previously unclosed cell first, so the measure strictly
decreases. -/
theorem fw_terminates (g : Grid ℚ) (alter : Bool) :
    (find_watersheds g alter).opn = [] ∧
    (find_watersheds g alter).meander = [] ∧
    measureW (seedState g) ≤ g.width * g.height + 2 * g.width + 2 * g.height := by
  have hbound : measureW (seedState g) ≤
      g.width * g.height + 2 * g.width + 2 * g.height := by
    unfold measureW
    have h1 := List.countP_le_length
      (fun p : Int × Int => !(seedState g).closed.cell p.1 p.2)
      (l := allCells (seedState g).elev)
    have h2 : (allCells (seedState g).elev).length = g.width * g.height := by
      rw [seed_elev g]
      exact length_allCells g
    have h3 := seed_opn_length g
    have h4 : (seedState g).meander.length = 0 := by
      rw [seed_meander g]
      rfl
    omega
  have hterm := runSteps_terminal alter (measureW (seedState g)) (seedState g)
    (le_refl _)
  exact ⟨hterm.1, hterm.2, hbound⟩

/-- C3 counterexample: on a 2×1 grid the first seeding loop pushes the
boundary cell (0,0) twice — (x,0) and (x,height−1) coincide when
height = 1 — refuting "each boundary cell enqueued exactly once" for
degenerate grids. -/
theorem fw_seed_double_push_cex :
    gW2.in_grid 0 0 = true ∧
    countCell 0 0 (seedState gW2).opn = 2 := by
  refine ⟨by decide, by decide⟩

/-- C3 (amended): for grids with width ≥ 2 and height ≥ 2 the seeding phase
enqueues every outer-boundary cell exactly once, keyed by its own
elevation, and marks it closed at seeding time. (The original claim fails
for degenerate grids: when width = 1 or height = 1 the two pushes of a
seeding iteration target the same cell, which is therefore enqueued twice
— see the counterexample — though still without crashing.) -/
theorem fw_seed_exactly_once (g : Grid ℚ) (hw : 2 ≤ g.width) (hh : 2 ≤ g.height)
    (x y : Int) (hb : onBoundary g x y) :
    countCell x y (seedState g).opn = 1 ∧
    (∀ e ∈ (seedState g).opn, e.z = g.cell e.x e.y) ∧
    (seedState g).closed.cell x y = true :=
  ⟨seed_count_boundary g hw hh x y hb, seed_keyed g,
   seed_closed_boundary g hw hh x y hb⟩

/-- Witness for the amended C3 at the corner cell of the concrete 3×3
grid. -/
theorem fw_seed_exactly_once_witness :
    countCell 0 0 (seedState g3c).opn = 1 ∧
    (∀ e ∈ (seedState g3c).opn, e.z = g3c.cell e.x e.y) ∧
    (seedState g3c).closed.cell 0 0 = true :=
  fw_seed_exactly_once g3c (by decide) (by decide) 0 0 ⟨by decide, by decide⟩

/-- C4: the label-assignment discipline of find_watersheds. At the seeded
state the run invariant holds and the counter is 1; every step preserves
the invariant; and under the invariant, one step changes a cell's label
only if it was the sentinel, the change being either (a) the popped cell
receiving the counter value (only when its elevation is valid data, the
counter then advancing by one) or (b) a discovered neighbor inheriting the
popped cell's label; a cell whose label is not the sentinel keeps it
forever. -/
theorem fw_label_assignment :
    (∀ g : Grid ℚ, InvW (seedState g) ∧ (seedState g).clabel = 1) ∧
    (∀ (alter : Bool) (s s' : WState), InvW s → stepW alter s = some s' →
      InvW s') ∧
    (∀ (alter : Bool) (s : WState) (c : Cellz) (s1 s' : WState) (p q : Int),
      InvW s → popCell s = some (c, s1) → stepW alter s = some s' →
      (s.labels.cell p q ≠ s.labels.no_data →
        s'.labels.cell p q = s.labels.cell p q) ∧
      (s'.labels.cell p q ≠ s.labels.cell p q →
        s.labels.cell p q = s.labels.no_data ∧ 1 ≤ s.clabel ∧
        ((p = c.x ∧ q = c.y ∧ s'.labels.cell p q = s.clabel ∧
            s.elev.cell p q ≠ s.elev.no_data ∧ s'.clabel = s.clabel + 1) ∨
         (isNeighborOf c p q ∧
           s'.labels.cell p q = s'.labels.cell c.x c.y)))) := by
  refine ⟨fun g => ⟨invW_seed g, seed_clabel g⟩, invW_step, ?_⟩
  intro alter s c s1 s' p q hI hpop hstep
  obtain ⟨c', s1', hpop', heq⟩ := stepW_some_elim hstep
  rw [hpop] at hpop'
  injection hpop' with h1
  injection h1 with hc2 hs2
  subst hc2
  subst hs2
  subst heq
  obtain ⟨hels, hlabs, hclos, hclabs, -, -, -, -⟩ := popCell_spec hpop
  have hclo_c : s1.closed.cell c.x c.y = true := popped_closed hpop hI
  obtain ⟨fo, fm, fe, fc, fn⟩ := freshLabel_fields s1 c
  constructor
  · intro hne0
    have hclosed_s1 : s1.closed.cell p q = true := by
      rw [hclos]
      exact hI.1 p q hne0
    have hfl_eq : (freshLabel s1 c).labels.cell p q = s1.labels.cell p q := by
      by_cases hch : (freshLabel s1 c).labels.cell p q = s1.labels.cell p q
      · exact hch
      · obtain ⟨-, -, hnd1, -, -, -⟩ := freshLabel_label_change s1 c p q hch
        rw [hlabs] at hnd1
        exact absurd hnd1 hne0
    have hclosed_s2 : (freshLabel s1 c).closed.cell p q = true := by
      rw [fc]
      exact hclosed_s1
    have hff := fold_labels_of_closed alter c neighborOffsets
      (freshLabel s1 c) p q hclosed_s2
    rw [hff.2, hfl_eq, hlabs]
  · intro hne
    by_cases hch : (freshLabel s1 c).labels.cell p q = s1.labels.cell p q
    · have hfne : (neighborOffsets.foldl (processNeighbor alter c)
          (freshLabel s1 c)).labels.cell p q ≠
          (freshLabel s1 c).labels.cell p q := by
        rw [hch, hlabs]
        exact hne
      obtain ⟨hclf, hex, hval, -⟩ := fold_label_change alter c neighborOffsets
        (freshLabel s1 c) neighborOffsets_ne p q hfne
      rw [fc, hclos] at hclf
      have hno : s.labels.cell p q = s.labels.no_data := by
        by_contra hcon
        rw [hI.1 p q hcon] at hclf
        cases hclf
      refine ⟨hno, hI.2.2.2.2, Or.inr ⟨hex, ?_⟩⟩
      rw [hval, fold_labels_at_c alter c neighborOffsets neighborOffsets_ne
        (freshLabel s1 c)]
    · obtain ⟨rfl, rfl, hnd1, hel1, hvalf, hclabf⟩ :=
        freshLabel_label_change s1 c p q hch
      have hclosed_s2 : (freshLabel s1 c).closed.cell c.x c.y = true := by
        rw [fc]
        exact hclo_c
      have hff := fold_labels_of_closed alter c neighborOffsets
        (freshLabel s1 c) c.x c.y hclosed_s2
      have hno : s.labels.cell c.x c.y = s.labels.no_data := by
        rw [hlabs] at hnd1
        exact hnd1
      refine ⟨hno, hI.2.2.2.2, Or.inl ⟨rfl, rfl, ?_, ?_, ?_⟩⟩
      · rw [hff.2, hvalf, hclabs]
      · rw [hels] at hel1
        exact hel1
      · rw [(fold_basic alter c neighborOffsets (freshLabel s1 c)).2.2.2.2,
          hclabf, hclabs]

/-- Witness for C4 at the concrete 2×1 grid: the popped data cell (1,0)
changes from the sentinel to the fresh label, matching the popped-cell case
of the characterization. -/
theorem fw_label_assignment_witness :
    ((seedState gW2).labels.cell 1 0 ≠ (seedState gW2).labels.no_data →
      wS2.labels.cell 1 0 = (seedState gW2).labels.cell 1 0) ∧
    (wS2.labels.cell 1 0 ≠ (seedState gW2).labels.cell 1 0 →
      (seedState gW2).labels.cell 1 0 = (seedState gW2).labels.no_data ∧
      1 ≤ (seedState gW2).clabel ∧
      (((1 : Int) = (⟨1, 0, 6⟩ : Cellz).x ∧ (0 : Int) = (⟨1, 0, 6⟩ : Cellz).y ∧
          wS2.labels.cell 1 0 = (seedState gW2).clabel ∧
          (seedState gW2).elev.cell 1 0 ≠ (seedState gW2).elev.no_data ∧
          wS2.clabel = (seedState gW2).clabel + 1) ∨
       (isNeighborOf ⟨1, 0, 6⟩ 1 0 ∧
         wS2.labels.cell 1 0 =
           wS2.labels.cell (⟨1, 0, 6⟩ : Cellz).x (⟨1, 0, 6⟩ : Cellz).y))) :=
  fw_label_assignment.2.2 true (seedState gW2) ⟨1, 0, 6⟩ wS1 wS2 1 0
    (fw_label_assignment.1 gW2).1 rfl rfl

